import Mathlib

/-!
# Verification of the timeline-based payment allocator

Shallow embedding of `run_timeline_cash_flow_analysis` from
`next-app/api-server/expenses.py` (the cash-constrained payment
prioritization engine), together with proofs of the spec's testable
properties.

Modelling conventions:
* Python `float` money values are modelled as `ℚ` (exact arithmetic on the
  rationals; all comparisons in the source are plain `<=`, `<`, `>`).
* `datetime` values are modelled as `Int` day numbers; `today` is a
  parameter.  `expense.due_date` is `Option Int` (nullable column).
* Python's `//` (floor division) is `Int.fdiv`.
* The source stores decisions in a `dict` keyed by the `Expense` *object*
  (object identity).  Expense objects come from a SQLAlchemy query, so the
  elements of `unpaid_expenses` are pairwise distinct objects; we model
  object identity by tagging each obligation with its index in the input
  list (`List.enum`) and keying the decision list by the `(index, record)`
  pair.
* `is_critical_vendor(session, vendor_id)` reads vendor metadata from the
  database; following the spec's data model it is carried on the record as
  the externally-derived boolean `is_critical_vendor`.
-/

/-- Urgency levels used by the allocator (`expense.urgency`). -/
inductive Urgency where
  | Critical
  | High
  | Medium
  | Low
deriving DecidableEq, Repr

/-- An unpaid obligation (row of `unpaid_expenses`). Only the fields the
allocator reads are modelled. -/
structure Obligation where
  id : Nat
  amount : ℚ
  due_date : Option Int
  urgency : Urgency
  is_critical_vendor : Bool
deriving DecidableEq, Repr

/-- Payment status of a decision: `"Full"`, `"Partial"` or `"Defer"`. -/
inductive PayStatus where
  | Full
  | Partial
  | Defer
deriving DecidableEq, Repr

/-- The per-obligation record stored in `recommendations[expense]`. -/
structure Decision where
  payment_status : PayStatus
  payment_amount : ℚ
  priority_score : Int
  rationale : String
deriving DecidableEq, Repr

/-- A decision entry: the dict key (input index paired with the obligation,
modelling Python object identity) together with the stored decision. -/
abbrev Entry := (Nat × Obligation) × Decision

/-- The mutable state threaded through the three processing loops. -/
structure AllocState where
  remaining_cash : ℚ
  total_recommended : ℚ
  recommendations : List Entry
deriving Repr

/-- The summary dictionary returned by the analysis. -/
structure Summary where
  available_cash : ℚ
  total_pending : ℚ
  total_recommended : ℚ
  cash_coverage_ratio : ℚ
  remaining_cash : ℚ
deriving Repr

/-- The full result: summary plus the decisions dictionary (as the list of
entries in insertion order). -/
structure AllocResult where
  summary : Summary
  recommendations : List Entry
deriving Repr

/-- `expense.urgency == "Critical" or (expense.vendor_id and
is_critical_vendor(session, expense.vendor_id))` — classification test for
the critical group. -/
def isCriticalExpense (e : Obligation) : Bool :=
  e.urgency = Urgency.Critical || e.is_critical_vendor

/-- Due-date key used by the `list.sort(key=lambda x: x.due_date)` calls.
Every obligation that reaches a sort has a non-null due date, so the
default value is never consulted. -/
def dueKey (e : Obligation) : Int :=
  e.due_date.getD 0

/-- Sorting relation for the per-group `sort(key=lambda x: x.due_date)`. -/
def dueLE (p q : Nat × Obligation) : Prop :=
  dueKey p.2 ≤ dueKey q.2

instance : DecidableRel dueLE := fun p q => inferInstanceAs (Decidable (dueKey p.2 ≤ dueKey q.2))

instance : IsTotal (Nat × Obligation) dueLE := ⟨fun p q => le_total (dueKey p.2) (dueKey q.2)⟩

instance : IsTrans (Nat × Obligation) dueLE :=
  ⟨fun _ _ _ h h' => le_trans (α := Int) h h'⟩

/-- Critical-group priority score (line 217):
`90 + min(10, (today - due).days if due and due < today else 0)`. -/
def criticalScore (today : Int) (e : Obligation) : Int :=
  90 + min 10 (match e.due_date with
    | some d => if d < today then today - d else 0
    | none => 0)

/-- `days_overdue = (today - expense.due_date.date()).days if expense.due_date else 0`
(line 248). -/
def daysOverdue (today : Int) (e : Obligation) : Int :=
  match e.due_date with
  | some d => today - d
  | none => 0

/-- Past-due-group priority score (line 249):
`70 + min(20, days_overdue // 5)`. -/
def pastDueScore (today : Int) (e : Obligation) : Int :=
  70 + min 20 (Int.fdiv (daysOverdue today e) 5)

/-- `days_to_due = (expense.due_date.date() - today).days if expense.due_date else 30`
(line 284). -/
def daysToDue (today : Int) (e : Obligation) : Int :=
  match e.due_date with
  | some d => d - today
  | none => 30

/-- Upcoming-group base score by days-to-due bucket (lines 287-294). -/
def upcomingBaseScore (days_to_due : Int) : Int :=
  if days_to_due ≤ 7 then 60
  else if days_to_due ≤ 14 then 50
  else if days_to_due ≤ 30 then 40
  else 30

/-- Urgency adjustment for the upcoming group (lines 297-304). -/
def urgencyFactor : Urgency → Int
  | Urgency.High => 10
  | Urgency.Medium => 0
  | Urgency.Low => -10
  | Urgency.Critical => 0

/-- Upcoming-group priority score (line 306): `base_score + urgency_factor`. -/
def upcomingScore (today : Int) (e : Obligation) : Int :=
  upcomingBaseScore (daysToDue today e) + urgencyFactor e.urgency

/-- One iteration of the critical-expenses loop (lines 216-244). -/
def processCritical (today : Int) (st : AllocState) (p : Nat × Obligation) : AllocState :=
  let e := p.2
  let score := criticalScore today e
  if e.amount ≤ st.remaining_cash then
    { remaining_cash := st.remaining_cash - e.amount
      total_recommended := st.total_recommended + e.amount
      recommendations := st.recommendations ++
        [(p, ⟨PayStatus.Full, e.amount, score,
              "Critical vendor or expense marked as critical"⟩)] }
  else if 0 < st.remaining_cash then
    { remaining_cash := 0
      total_recommended := st.total_recommended + st.remaining_cash
      recommendations := st.recommendations ++
        [(p, ⟨PayStatus.Partial, st.remaining_cash, score,
              "Critical expense with partial payment due to cash constraints"⟩)] }
  else
    { remaining_cash := st.remaining_cash
      total_recommended := st.total_recommended
      recommendations := st.recommendations ++
        [(p, ⟨PayStatus.Defer, 0, score,
              "Critical expense deferred due to insufficient funds"⟩)] }

/-- One iteration of the past-due-expenses loop (lines 247-276). -/
def processPastDue (today : Int) (st : AllocState) (p : Nat × Obligation) : AllocState :=
  let e := p.2
  let n := daysOverdue today e
  let score := pastDueScore today e
  if e.amount ≤ st.remaining_cash then
    { remaining_cash := st.remaining_cash - e.amount
      total_recommended := st.total_recommended + e.amount
      recommendations := st.recommendations ++
        [(p, ⟨PayStatus.Full, e.amount, score,
              "Past due by " ++ toString n ++ " days"⟩)] }
  else if 0 < st.remaining_cash then
    { remaining_cash := 0
      total_recommended := st.total_recommended + st.remaining_cash
      recommendations := st.recommendations ++
        [(p, ⟨PayStatus.Partial, st.remaining_cash, score,
              "Past due by " ++ toString n ++
                " days with partial payment due to cash constraints"⟩)] }
  else
    { remaining_cash := st.remaining_cash
      total_recommended := st.total_recommended
      recommendations := st.recommendations ++
        [(p, ⟨PayStatus.Defer, 0, score,
              "Past due expense deferred due to insufficient funds"⟩)] }

/-- One iteration of the upcoming-expenses loop (lines 279-332), including
the `if expense in recommendations: continue` guard (line 281). -/
def processUpcoming (today : Int) (st : AllocState) (p : Nat × Obligation) : AllocState :=
  if st.recommendations.any (fun q => decide (q.1 = p)) then st
  else
    let e := p.2
    let n := daysToDue today e
    let score := upcomingScore today e
    if e.amount ≤ st.remaining_cash then
      { remaining_cash := st.remaining_cash - e.amount
        total_recommended := st.total_recommended + e.amount
        recommendations := st.recommendations ++
          [(p, ⟨PayStatus.Full, e.amount, score,
                "Due in " ++ toString n ++ " days, sufficient funds available"⟩)] }
    else if 0 < st.remaining_cash ∧ n ≤ 7 then
      { remaining_cash := 0
        total_recommended := st.total_recommended + st.remaining_cash
        recommendations := st.recommendations ++
          [(p, ⟨PayStatus.Partial, st.remaining_cash, score,
                "Due in " ++ toString n ++
                  " days, partial payment due to cash constraints"⟩)] }
    else
      { remaining_cash := st.remaining_cash
        total_recommended := st.total_recommended
        recommendations := st.recommendations ++
          [(p, ⟨PayStatus.Defer, 0, score,
                "Due in " ++ toString n ++ " days, deferred based on timeline analysis"⟩)] }

/-- Critical group (lines 194-203): obligations with a due date whose
urgency is Critical or whose vendor is critical, in input order. -/
def criticalGroup (unpaid_expenses : List Obligation) : List (Nat × Obligation) :=
  (unpaid_expenses.enum.filter (fun p => p.2.due_date.isSome)).filter
    (fun p => isCriticalExpense p.2)

/-- Past-due group (lines 204-205): non-critical obligations with a due date
strictly before today, in input order. -/
def pastDueGroup (today : Int) (unpaid_expenses : List Obligation) : List (Nat × Obligation) :=
  (unpaid_expenses.enum.filter (fun p => p.2.due_date.isSome)).filter
    (fun p => !isCriticalExpense p.2 && decide (dueKey p.2 < today))

/-- Upcoming group (lines 206-207): the remaining obligations with a due
date, in input order. -/
def upcomingGroup (today : Int) (unpaid_expenses : List Obligation) : List (Nat × Obligation) :=
  (unpaid_expenses.enum.filter (fun p => p.2.due_date.isSome)).filter
    (fun p => !isCriticalExpense p.2 && !decide (dueKey p.2 < today))

/-- Shallow embedding of `run_timeline_cash_flow_analysis` (lines 157-346).
The `session` and `days_forecast` parameters play no role in the allocation
(`days_forecast` is informational only) and are omitted. -/
def run_timeline_cash_flow_analysis (today : Int) (unpaid_expenses : List Obligation)
    (available_cash : ℚ) : AllocResult :=
  let total_pending := (unpaid_expenses.map (fun e => e.amount)).sum
  let critical_expenses := List.insertionSort dueLE (criticalGroup unpaid_expenses)
  let past_due_expenses := List.insertionSort dueLE (pastDueGroup today unpaid_expenses)
  let upcoming_expenses := List.insertionSort dueLE (upcomingGroup today unpaid_expenses)
  let st0 : AllocState := ⟨available_cash, 0, []⟩
  let st1 := critical_expenses.foldl (processCritical today) st0
  let st2 := past_due_expenses.foldl (processPastDue today) st1
  let st3 := upcoming_expenses.foldl (processUpcoming today) st2
  { summary :=
      { available_cash := available_cash
        total_pending := total_pending
        total_recommended := st3.total_recommended
        cash_coverage_ratio := if 0 < total_pending then available_cash / total_pending else 1
        remaining_cash := st3.remaining_cash }
    recommendations := st3.recommendations }

/-- Sum of `payment_amount` over a list of decision entries. -/
def paymentsSum (l : List Entry) : ℚ :=
  (l.map (fun q => q.2.payment_amount)).sum

/-- Keys (dict keys, i.e. indexed obligations) of a decision list. -/
def keysOf (l : List Entry) : List (Nat × Obligation) :=
  l.map Prod.fst

/-- Generic preservation of a predicate along a `foldl` over a processing
loop. -/
theorem foldl_preserves {α : Type} {f : AllocState → α → AllocState} {P : AllocState → Prop}
    (l : List α) (st : AllocState) (h0 : P st)
    (hf : ∀ st' p, p ∈ l → P st' → P (f st' p)) : P (l.foldl f st) := by
  induction l generalizing st with
  | nil => exact h0
  | cons a l ih =>
    exact ih (f st a) (hf st a (List.mem_cons_self a l) h0)
      (fun st' p hp => hf st' p (List.mem_cons_of_mem a hp))

/-- The running conservation invariant of the allocation pass:
`total_recommended` plus `remaining_cash` is the initial cash, and
`total_recommended` is the sum of the recorded `payment_amount`s. -/
def StateInv (cash : ℚ) (st : AllocState) : Prop :=
  st.total_recommended + st.remaining_cash = cash ∧
  st.total_recommended = paymentsSum st.recommendations

theorem paymentsSum_append (l : List Entry) (q : Entry) :
    paymentsSum (l ++ [q]) = paymentsSum l + q.2.payment_amount := by
  simp [paymentsSum]

theorem processCritical_full (today : Int) (st : AllocState) (p : Nat × Obligation)
    (h : p.2.amount ≤ st.remaining_cash) :
    processCritical today st p =
      ⟨st.remaining_cash - p.2.amount, st.total_recommended + p.2.amount,
        st.recommendations ++
          [(p, ⟨PayStatus.Full, p.2.amount, criticalScore today p.2,
                "Critical vendor or expense marked as critical"⟩)]⟩ := by
  simp [processCritical, h]

theorem processCritical_partialBranch (today : Int) (st : AllocState) (p : Nat × Obligation)
    (h : ¬ p.2.amount ≤ st.remaining_cash) (h' : 0 < st.remaining_cash) :
    processCritical today st p =
      ⟨0, st.total_recommended + st.remaining_cash,
        st.recommendations ++
          [(p, ⟨PayStatus.Partial, st.remaining_cash, criticalScore today p.2,
                "Critical expense with partial payment due to cash constraints"⟩)]⟩ := by
  simp [processCritical, h, h']

theorem processCritical_defer (today : Int) (st : AllocState) (p : Nat × Obligation)
    (h : ¬ p.2.amount ≤ st.remaining_cash) (h' : ¬ 0 < st.remaining_cash) :
    processCritical today st p =
      ⟨st.remaining_cash, st.total_recommended,
        st.recommendations ++
          [(p, ⟨PayStatus.Defer, 0, criticalScore today p.2,
                "Critical expense deferred due to insufficient funds"⟩)]⟩ := by
  simp [processCritical, h, h']

theorem processPastDue_full (today : Int) (st : AllocState) (p : Nat × Obligation)
    (h : p.2.amount ≤ st.remaining_cash) :
    processPastDue today st p =
      ⟨st.remaining_cash - p.2.amount, st.total_recommended + p.2.amount,
        st.recommendations ++
          [(p, ⟨PayStatus.Full, p.2.amount, pastDueScore today p.2,
                "Past due by " ++ toString (daysOverdue today p.2) ++ " days"⟩)]⟩ := by
  simp [processPastDue, h]

theorem processPastDue_partialBranch (today : Int) (st : AllocState) (p : Nat × Obligation)
    (h : ¬ p.2.amount ≤ st.remaining_cash) (h' : 0 < st.remaining_cash) :
    processPastDue today st p =
      ⟨0, st.total_recommended + st.remaining_cash,
        st.recommendations ++
          [(p, ⟨PayStatus.Partial, st.remaining_cash, pastDueScore today p.2,
                "Past due by " ++ toString (daysOverdue today p.2) ++
                  " days with partial payment due to cash constraints"⟩)]⟩ := by
  simp [processPastDue, h, h']

theorem processPastDue_defer (today : Int) (st : AllocState) (p : Nat × Obligation)
    (h : ¬ p.2.amount ≤ st.remaining_cash) (h' : ¬ 0 < st.remaining_cash) :
    processPastDue today st p =
      ⟨st.remaining_cash, st.total_recommended,
        st.recommendations ++
          [(p, ⟨PayStatus.Defer, 0, pastDueScore today p.2,
                "Past due expense deferred due to insufficient funds"⟩)]⟩ := by
  simp [processPastDue, h, h']

theorem anyKey_eq_true (st : AllocState) (p : Nat × Obligation) :
    (st.recommendations.any fun q => decide (q.1 = p)) = true ↔
      p ∈ keysOf st.recommendations := by
  rw [List.any_eq_true]
  constructor
  · rintro ⟨q, hq, hd⟩
    have hqp : q.1 = p := of_decide_eq_true hd
    exact hqp ▸ List.mem_map_of_mem Prod.fst hq
  · intro hp
    rcases List.mem_map.1 hp with ⟨q, hq, hqp⟩
    exact ⟨q, hq, decide_eq_true hqp⟩

theorem anyKey_eq_false (st : AllocState) (p : Nat × Obligation)
    (hk : ¬ p ∈ keysOf st.recommendations) :
    (st.recommendations.any fun q => decide (q.1 = p)) = false := by
  rw [← Bool.not_eq_true]
  exact fun hc => hk ((anyKey_eq_true st p).1 hc)

theorem processUpcoming_skip (today : Int) (st : AllocState) (p : Nat × Obligation)
    (h : p ∈ keysOf st.recommendations) :
    processUpcoming today st p = st := by
  rw [processUpcoming, if_pos ((anyKey_eq_true st p).2 h)]

theorem processUpcoming_full (today : Int) (st : AllocState) (p : Nat × Obligation)
    (hk : ¬ p ∈ keysOf st.recommendations) (h : p.2.amount ≤ st.remaining_cash) :
    processUpcoming today st p =
      ⟨st.remaining_cash - p.2.amount, st.total_recommended + p.2.amount,
        st.recommendations ++
          [(p, ⟨PayStatus.Full, p.2.amount, upcomingScore today p.2,
                "Due in " ++ toString (daysToDue today p.2) ++
                  " days, sufficient funds available"⟩)]⟩ := by
  simp [processUpcoming, anyKey_eq_false st p hk, h]

theorem processUpcoming_partialBranch (today : Int) (st : AllocState) (p : Nat × Obligation)
    (hk : ¬ p ∈ keysOf st.recommendations) (h : ¬ p.2.amount ≤ st.remaining_cash)
    (h' : 0 < st.remaining_cash) (h7 : daysToDue today p.2 ≤ 7) :
    processUpcoming today st p =
      ⟨0, st.total_recommended + st.remaining_cash,
        st.recommendations ++
          [(p, ⟨PayStatus.Partial, st.remaining_cash, upcomingScore today p.2,
                "Due in " ++ toString (daysToDue today p.2) ++
                  " days, partial payment due to cash constraints"⟩)]⟩ := by
  simp [processUpcoming, anyKey_eq_false st p hk, h, h', h7]

theorem processUpcoming_defer (today : Int) (st : AllocState) (p : Nat × Obligation)
    (hk : ¬ p ∈ keysOf st.recommendations) (h : ¬ p.2.amount ≤ st.remaining_cash)
    (h2 : ¬ (0 < st.remaining_cash ∧ daysToDue today p.2 ≤ 7)) :
    processUpcoming today st p =
      ⟨st.remaining_cash, st.total_recommended,
        st.recommendations ++
          [(p, ⟨PayStatus.Defer, 0, upcomingScore today p.2,
                "Due in " ++ toString (daysToDue today p.2) ++
                  " days, deferred based on timeline analysis"⟩)]⟩ := by
  simp only [processUpcoming, anyKey_eq_false st p hk, Bool.false_eq_true, if_false,
    if_neg h, if_neg h2]

theorem processCritical_inv {cash : ℚ} (today : Int) (st : AllocState) (p : Nat × Obligation)
    (h : StateInv cash st) : StateInv cash (processCritical today st p) := by
  obtain ⟨h1, h2⟩ := h
  by_cases hA : p.2.amount ≤ st.remaining_cash
  · rw [processCritical_full today st p hA]
    exact ⟨by dsimp only; linarith, by simp [paymentsSum_append, h2]⟩
  · by_cases hB : 0 < st.remaining_cash
    · rw [processCritical_partialBranch today st p hA hB]
      exact ⟨by dsimp only; linarith, by simp [paymentsSum_append, h2]⟩
    · rw [processCritical_defer today st p hA hB]
      exact ⟨by dsimp only; linarith, by simp [paymentsSum_append, h2]⟩

theorem processPastDue_inv {cash : ℚ} (today : Int) (st : AllocState) (p : Nat × Obligation)
    (h : StateInv cash st) : StateInv cash (processPastDue today st p) := by
  obtain ⟨h1, h2⟩ := h
  by_cases hA : p.2.amount ≤ st.remaining_cash
  · rw [processPastDue_full today st p hA]
    exact ⟨by dsimp only; linarith, by simp [paymentsSum_append, h2]⟩
  · by_cases hB : 0 < st.remaining_cash
    · rw [processPastDue_partialBranch today st p hA hB]
      exact ⟨by dsimp only; linarith, by simp [paymentsSum_append, h2]⟩
    · rw [processPastDue_defer today st p hA hB]
      exact ⟨by dsimp only; linarith, by simp [paymentsSum_append, h2]⟩

theorem processUpcoming_inv {cash : ℚ} (today : Int) (st : AllocState) (p : Nat × Obligation)
    (h : StateInv cash st) : StateInv cash (processUpcoming today st p) := by
  obtain ⟨h1, h2⟩ := h
  by_cases hk : p ∈ keysOf st.recommendations
  · rw [processUpcoming_skip today st p hk]
    exact ⟨h1, h2⟩
  · by_cases hA : p.2.amount ≤ st.remaining_cash
    · rw [processUpcoming_full today st p hk hA]
      exact ⟨by dsimp only; linarith, by simp [paymentsSum_append, h2]⟩
    · by_cases hB : 0 < st.remaining_cash ∧ daysToDue today p.2 ≤ 7
      · rw [processUpcoming_partialBranch today st p hk hA hB.1 hB.2]
        exact ⟨by dsimp only; linarith, by simp [paymentsSum_append, h2]⟩
      · rw [processUpcoming_defer today st p hk hA hB]
        exact ⟨by dsimp only; linarith, by simp [paymentsSum_append, h2]⟩

/-- The state at the end of the three processing loops. -/
def finalState (today : Int) (unpaid_expenses : List Obligation) (available_cash : ℚ) :
    AllocState :=
  (List.insertionSort dueLE (upcomingGroup today unpaid_expenses)).foldl
    (processUpcoming today)
    ((List.insertionSort dueLE (pastDueGroup today unpaid_expenses)).foldl
      (processPastDue today)
      ((List.insertionSort dueLE (criticalGroup unpaid_expenses)).foldl
        (processCritical today) ⟨available_cash, 0, []⟩))

/-- `total_pending = sum(expense.amount for expense in unpaid_expenses)`
(line 183): the sum over the whole input, including obligations with no
due date. -/
def totalPendingOf (unpaid_expenses : List Obligation) : ℚ :=
  (unpaid_expenses.map fun e => e.amount).sum

/-- The analysis result, re-expressed through `finalState`. -/
theorem run_eq (today : Int) (unpaid_expenses : List Obligation) (available_cash : ℚ) :
    run_timeline_cash_flow_analysis today unpaid_expenses available_cash =
      ⟨⟨available_cash, totalPendingOf unpaid_expenses,
        (finalState today unpaid_expenses available_cash).total_recommended,
        if 0 < totalPendingOf unpaid_expenses then
          available_cash / totalPendingOf unpaid_expenses else 1,
        (finalState today unpaid_expenses available_cash).remaining_cash⟩,
       (finalState today unpaid_expenses available_cash).recommendations⟩ := rfl

/-- The conservation invariant holds of the final state of the whole pass. -/
theorem run_stateInv (today : Int) (unpaid_expenses : List Obligation) (available_cash : ℚ) :
    StateInv available_cash (finalState today unpaid_expenses available_cash) := by
  apply foldl_preserves _ _ _ (fun st' p _ h => processUpcoming_inv today st' p h)
  apply foldl_preserves _ _ _ (fun st' p _ h => processPastDue_inv today st' p h)
  apply foldl_preserves _ _ _ (fun st' p _ h => processCritical_inv today st' p h)
  constructor
  · simp
  · simp [paymentsSum]

theorem processCritical_remaining_nonneg (today : Int) (st : AllocState) (p : Nat × Obligation)
    (h : 0 ≤ st.remaining_cash) : 0 ≤ (processCritical today st p).remaining_cash := by
  by_cases hA : p.2.amount ≤ st.remaining_cash
  · rw [processCritical_full today st p hA]; dsimp only; linarith
  · by_cases hB : 0 < st.remaining_cash
    · rw [processCritical_partialBranch today st p hA hB]
    · rw [processCritical_defer today st p hA hB]; exact h

theorem processPastDue_remaining_nonneg (today : Int) (st : AllocState) (p : Nat × Obligation)
    (h : 0 ≤ st.remaining_cash) : 0 ≤ (processPastDue today st p).remaining_cash := by
  by_cases hA : p.2.amount ≤ st.remaining_cash
  · rw [processPastDue_full today st p hA]; dsimp only; linarith
  · by_cases hB : 0 < st.remaining_cash
    · rw [processPastDue_partialBranch today st p hA hB]
    · rw [processPastDue_defer today st p hA hB]; exact h

theorem processUpcoming_remaining_nonneg (today : Int) (st : AllocState) (p : Nat × Obligation)
    (h : 0 ≤ st.remaining_cash) : 0 ≤ (processUpcoming today st p).remaining_cash := by
  by_cases hk : p ∈ keysOf st.recommendations
  · rw [processUpcoming_skip today st p hk]; exact h
  · by_cases hA : p.2.amount ≤ st.remaining_cash
    · rw [processUpcoming_full today st p hk hA]; dsimp only; linarith
    · by_cases hB : 0 < st.remaining_cash ∧ daysToDue today p.2 ≤ 7
      · rw [processUpcoming_partialBranch today st p hk hA hB.1 hB.2]
      · rw [processUpcoming_defer today st p hk hA hB]; exact h

/-- Once the pass starts with non-negative cash, `remaining_cash` stays
non-negative to the end. -/
theorem finalState_remaining_nonneg (today : Int) (unpaid_expenses : List Obligation)
    (available_cash : ℚ) (h : 0 ≤ available_cash) :
    0 ≤ (finalState today unpaid_expenses available_cash).remaining_cash := by
  apply foldl_preserves _ _ _ (fun st' p _ h => processUpcoming_remaining_nonneg today st' p h)
  apply foldl_preserves _ _ _ (fun st' p _ h => processPastDue_remaining_nonneg today st' p h)
  apply foldl_preserves _ _ _ (fun st' p _ h => processCritical_remaining_nonneg today st' p h)
  exact h

/-- C9: for every input, the summary's `remaining_cash` equals
`available_cash - total_recommended`. -/
theorem C9_remaining_cash_eq_available_sub_recommended (today : Int)
    (unpaid_expenses : List Obligation) (available_cash : ℚ) :
    (run_timeline_cash_flow_analysis today unpaid_expenses available_cash).summary.remaining_cash =
      (run_timeline_cash_flow_analysis today unpaid_expenses
          available_cash).summary.available_cash -
        (run_timeline_cash_flow_analysis today unpaid_expenses
            available_cash).summary.total_recommended := by
  have h := (run_stateInv today unpaid_expenses available_cash).1
  rw [run_eq]
  dsimp only
  linarith

/-- C1 (amended): with `available_cash ≥ 0` (as the spec's input contract
requires) and all amounts positive, the summary satisfies
`total_recommended ≤ available_cash`, and `total_recommended` equals the
sum of `payment_amount` over all returned decisions. -/
theorem C1_conservation (today : Int) (unpaid_expenses : List Obligation)
    (available_cash : ℚ) (hcash : 0 ≤ available_cash)
    (hpos : ∀ e ∈ unpaid_expenses, 0 < e.amount) :
    (run_timeline_cash_flow_analysis today unpaid_expenses
        available_cash).summary.total_recommended ≤
      (run_timeline_cash_flow_analysis today unpaid_expenses
          available_cash).summary.available_cash ∧
    (run_timeline_cash_flow_analysis today unpaid_expenses
        available_cash).summary.total_recommended =
      paymentsSum (run_timeline_cash_flow_analysis today unpaid_expenses
          available_cash).recommendations := by
  have h := run_stateInv today unpaid_expenses available_cash
  have hn := finalState_remaining_nonneg today unpaid_expenses available_cash hcash
  rw [run_eq]
  dsimp only
  exact ⟨by linarith [h.1], h.2⟩

/-- C1 as stated is false: with a negative `available_cash` and a single
positive obligation, nothing is paid, so `total_recommended = 0` exceeds
`available_cash = -1`. -/
theorem C1_counterexample :
    (∀ e ∈ [({ id := 1, amount := 1, due_date := some 1, urgency := Urgency.Medium,
               is_critical_vendor := false } : Obligation)], 0 < e.amount) ∧
    ¬ ((run_timeline_cash_flow_analysis 0
          [{ id := 1, amount := 1, due_date := some 1, urgency := Urgency.Medium,
             is_critical_vendor := false }] (-1)).summary.total_recommended ≤
        (run_timeline_cash_flow_analysis 0
          [{ id := 1, amount := 1, due_date := some 1, urgency := Urgency.Medium,
             is_critical_vendor := false }] (-1)).summary.available_cash) := by
  decide

/-- Witness instantiating `C1_conservation` at a concrete input. -/
theorem C1_conservation_witness :
    (run_timeline_cash_flow_analysis 0
        [{ id := 1, amount := 2, due_date := some 1, urgency := Urgency.Medium,
           is_critical_vendor := false }] 5).summary.total_recommended ≤
      (run_timeline_cash_flow_analysis 0
          [{ id := 1, amount := 2, due_date := some 1, urgency := Urgency.Medium,
             is_critical_vendor := false }] 5).summary.available_cash ∧
    (run_timeline_cash_flow_analysis 0
        [{ id := 1, amount := 2, due_date := some 1, urgency := Urgency.Medium,
           is_critical_vendor := false }] 5).summary.total_recommended =
      paymentsSum (run_timeline_cash_flow_analysis 0
          [{ id := 1, amount := 2, due_date := some 1, urgency := Urgency.Medium,
             is_critical_vendor := false }] 5).recommendations :=
  C1_conservation 0
    [{ id := 1, amount := 2, due_date := some 1, urgency := Urgency.Medium,
       is_critical_vendor := false }] 5 (by norm_num) (by decide)

/-- C6: an Upcoming obligation with `days_to_due > 7` processed when
`remaining_cash` is less than its amount is Deferred with
`payment_amount = 0`, and `remaining_cash` is unchanged. -/
theorem C6_upcoming_defer_preserves_cash (today : Int) (st : AllocState) (p : Nat × Obligation)
    (hk : ¬ p ∈ keysOf st.recommendations) (hlt : st.remaining_cash < p.2.amount)
    (h7 : 7 < daysToDue today p.2) :
    (processUpcoming today st p).remaining_cash = st.remaining_cash ∧
    (processUpcoming today st p).recommendations =
      st.recommendations ++
        [(p, ⟨PayStatus.Defer, 0, upcomingScore today p.2,
              "Due in " ++ toString (daysToDue today p.2) ++
                " days, deferred based on timeline analysis"⟩)] := by
  have hA : ¬ p.2.amount ≤ st.remaining_cash := not_le.2 hlt
  have h2 : ¬ (0 < st.remaining_cash ∧ daysToDue today p.2 ≤ 7) :=
    fun hc => absurd h7 (not_lt.2 hc.2)
  rw [processUpcoming_defer today st p hk hA h2]
  exact ⟨rfl, rfl⟩

/-- Witness instantiating `C6_upcoming_defer_preserves_cash` at a concrete
state and obligation. -/
theorem C6_upcoming_defer_preserves_cash_witness :
    (processUpcoming 0 ⟨5, 0, []⟩
        (0, { id := 1, amount := 10, due_date := some 9, urgency := Urgency.Medium,
              is_critical_vendor := false })).remaining_cash =
      (⟨5, 0, []⟩ : AllocState).remaining_cash ∧
    (processUpcoming 0 ⟨5, 0, []⟩
        (0, { id := 1, amount := 10, due_date := some 9, urgency := Urgency.Medium,
              is_critical_vendor := false })).recommendations =
      (⟨5, 0, []⟩ : AllocState).recommendations ++
        [((0, { id := 1, amount := 10, due_date := some 9, urgency := Urgency.Medium,
                is_critical_vendor := false }),
          ⟨PayStatus.Defer, 0,
            upcomingScore 0 { id := 1, amount := 10, due_date := some 9,
                              urgency := Urgency.Medium, is_critical_vendor := false },
            "Due in " ++
              toString (daysToDue 0 { id := 1, amount := 10, due_date := some 9,
                                      urgency := Urgency.Medium, is_critical_vendor := false }) ++
                " days, deferred based on timeline analysis"⟩)] :=
  C6_upcoming_defer_preserves_cash 0 ⟨5, 0, []⟩
    (0, { id := 1, amount := 10, due_date := some 9, urgency := Urgency.Medium,
          is_critical_vendor := false })
    (by decide) (by norm_num) (by decide)

theorem keysOf_append (l : List Entry) (q : Entry) :
    keysOf (l ++ [q]) = keysOf l ++ [q.1] := by
  simp [keysOf]

theorem keysOf_append2 (l1 l2 : List Entry) :
    keysOf (l1 ++ l2) = keysOf l1 ++ keysOf l2 := by
  simp [keysOf]

theorem processCritical_keys (today : Int) (st : AllocState) (p : Nat × Obligation) :
    keysOf (processCritical today st p).recommendations = keysOf st.recommendations ++ [p] := by
  by_cases hA : p.2.amount ≤ st.remaining_cash
  · rw [processCritical_full today st p hA]; dsimp only; rw [keysOf_append]
  · by_cases hB : 0 < st.remaining_cash
    · rw [processCritical_partialBranch today st p hA hB]; dsimp only; rw [keysOf_append]
    · rw [processCritical_defer today st p hA hB]; dsimp only; rw [keysOf_append]

theorem processPastDue_keys (today : Int) (st : AllocState) (p : Nat × Obligation) :
    keysOf (processPastDue today st p).recommendations = keysOf st.recommendations ++ [p] := by
  by_cases hA : p.2.amount ≤ st.remaining_cash
  · rw [processPastDue_full today st p hA]; dsimp only; rw [keysOf_append]
  · by_cases hB : 0 < st.remaining_cash
    · rw [processPastDue_partialBranch today st p hA hB]; dsimp only; rw [keysOf_append]
    · rw [processPastDue_defer today st p hA hB]; dsimp only; rw [keysOf_append]

theorem processUpcoming_keys (today : Int) (st : AllocState) (p : Nat × Obligation)
    (hk : ¬ p ∈ keysOf st.recommendations) :
    keysOf (processUpcoming today st p).recommendations = keysOf st.recommendations ++ [p] := by
  by_cases hA : p.2.amount ≤ st.remaining_cash
  · rw [processUpcoming_full today st p hk hA]; dsimp only; rw [keysOf_append]
  · by_cases hB : 0 < st.remaining_cash ∧ daysToDue today p.2 ≤ 7
    · rw [processUpcoming_partialBranch today st p hk hA hB.1 hB.2]; dsimp only; rw [keysOf_append]
    · rw [processUpcoming_defer today st p hk hA hB]; dsimp only; rw [keysOf_append]

/-- Keys accumulated by the critical loop: one per processed obligation, in
processing order. -/
theorem foldl_critical_keys (today : Int) (l : List (Nat × Obligation)) (st : AllocState) :
    keysOf ((l.foldl (processCritical today) st).recommendations) =
      keysOf st.recommendations ++ l := by
  induction l generalizing st with
  | nil => simp
  | cons a l ih =>
    rw [List.foldl_cons, ih, processCritical_keys]
    simp

/-- Keys accumulated by the past-due loop. -/
theorem foldl_pastDue_keys (today : Int) (l : List (Nat × Obligation)) (st : AllocState) :
    keysOf ((l.foldl (processPastDue today) st).recommendations) =
      keysOf st.recommendations ++ l := by
  induction l generalizing st with
  | nil => simp
  | cons a l ih =>
    rw [List.foldl_cons, ih, processPastDue_keys]
    simp

/-- Keys accumulated by the upcoming loop, when none of its obligations was
already processed (the guard at line 281 never fires). -/
theorem foldl_upcoming_keys (today : Int) (l : List (Nat × Obligation)) (st : AllocState)
    (hd : ∀ p ∈ l, ¬ p ∈ keysOf st.recommendations) (hnd : l.Nodup) :
    keysOf ((l.foldl (processUpcoming today) st).recommendations) =
      keysOf st.recommendations ++ l := by
  induction l generalizing st with
  | nil => simp
  | cons a l ih =>
    rw [List.foldl_cons]
    have ha := hd a (List.mem_cons_self a l)
    have hstep := processUpcoming_keys today st a ha
    rw [ih (processUpcoming today st a) ?_ (List.Nodup.of_cons hnd), hstep]
    · simp
    · intro p hp
      rw [hstep]
      intro hmem
      rcases List.mem_append.1 hmem with hmem | hmem
      · exact hd p (List.mem_cons_of_mem a hp) hmem
      · have : p = a := List.mem_singleton.1 hmem
        exact (List.nodup_cons.1 hnd).1 (this ▸ hp)

theorem processCritical_rec_mem (today : Int) (st : AllocState) (p : Nat × Obligation)
    (q : Entry) (h : q ∈ (processCritical today st p).recommendations) :
    q ∈ st.recommendations ∨
      (q.1 = p ∧ q.2.priority_score = criticalScore today p.2) := by
  have h' : q ∈ st.recommendations ++ [((p : Nat × Obligation),
      (⟨PayStatus.Full, p.2.amount, criticalScore today p.2,
        "Critical vendor or expense marked as critical"⟩ : Decision))] ∨
      q ∈ st.recommendations ++ [((p : Nat × Obligation),
      (⟨PayStatus.Partial, st.remaining_cash, criticalScore today p.2,
        "Critical expense with partial payment due to cash constraints"⟩ : Decision))] ∨
      q ∈ st.recommendations ++ [((p : Nat × Obligation),
      (⟨PayStatus.Defer, 0, criticalScore today p.2,
        "Critical expense deferred due to insufficient funds"⟩ : Decision))] := by
    by_cases hA : p.2.amount ≤ st.remaining_cash
    · rw [processCritical_full today st p hA] at h; exact Or.inl h
    · by_cases hB : 0 < st.remaining_cash
      · rw [processCritical_partialBranch today st p hA hB] at h; exact Or.inr (Or.inl h)
      · rw [processCritical_defer today st p hA hB] at h; exact Or.inr (Or.inr h)
  rcases h' with h' | h' | h' <;>
    rcases List.mem_append.1 h' with hm | hm <;>
    first
      | exact Or.inl hm
      | · have hq := List.mem_singleton.1 hm
          subst hq
          exact Or.inr ⟨rfl, rfl⟩

theorem processPastDue_rec_mem (today : Int) (st : AllocState) (p : Nat × Obligation)
    (q : Entry) (h : q ∈ (processPastDue today st p).recommendations) :
    q ∈ st.recommendations ∨
      (q.1 = p ∧ q.2.priority_score = pastDueScore today p.2) := by
  have h' : q ∈ st.recommendations ++ [((p : Nat × Obligation),
      (⟨PayStatus.Full, p.2.amount, pastDueScore today p.2,
        "Past due by " ++ toString (daysOverdue today p.2) ++ " days"⟩ : Decision))] ∨
      q ∈ st.recommendations ++ [((p : Nat × Obligation),
      (⟨PayStatus.Partial, st.remaining_cash, pastDueScore today p.2,
        "Past due by " ++ toString (daysOverdue today p.2) ++
          " days with partial payment due to cash constraints"⟩ : Decision))] ∨
      q ∈ st.recommendations ++ [((p : Nat × Obligation),
      (⟨PayStatus.Defer, 0, pastDueScore today p.2,
        "Past due expense deferred due to insufficient funds"⟩ : Decision))] := by
    by_cases hA : p.2.amount ≤ st.remaining_cash
    · rw [processPastDue_full today st p hA] at h; exact Or.inl h
    · by_cases hB : 0 < st.remaining_cash
      · rw [processPastDue_partialBranch today st p hA hB] at h; exact Or.inr (Or.inl h)
      · rw [processPastDue_defer today st p hA hB] at h; exact Or.inr (Or.inr h)
  rcases h' with h' | h' | h' <;>
    rcases List.mem_append.1 h' with hm | hm <;>
    first
      | exact Or.inl hm
      | · have hq := List.mem_singleton.1 hm
          subst hq
          exact Or.inr ⟨rfl, rfl⟩

theorem processUpcoming_rec_mem (today : Int) (st : AllocState) (p : Nat × Obligation)
    (q : Entry) (h : q ∈ (processUpcoming today st p).recommendations) :
    q ∈ st.recommendations ∨
      (q.1 = p ∧ q.2.priority_score = upcomingScore today p.2) := by
  by_cases hk : p ∈ keysOf st.recommendations
  · rw [processUpcoming_skip today st p hk] at h; exact Or.inl h
  · have h' : q ∈ st.recommendations ++ [((p : Nat × Obligation),
        (⟨PayStatus.Full, p.2.amount, upcomingScore today p.2,
          "Due in " ++ toString (daysToDue today p.2) ++
            " days, sufficient funds available"⟩ : Decision))] ∨
        q ∈ st.recommendations ++ [((p : Nat × Obligation),
        (⟨PayStatus.Partial, st.remaining_cash, upcomingScore today p.2,
          "Due in " ++ toString (daysToDue today p.2) ++
            " days, partial payment due to cash constraints"⟩ : Decision))] ∨
        q ∈ st.recommendations ++ [((p : Nat × Obligation),
        (⟨PayStatus.Defer, 0, upcomingScore today p.2,
          "Due in " ++ toString (daysToDue today p.2) ++
            " days, deferred based on timeline analysis"⟩ : Decision))] := by
      by_cases hA : p.2.amount ≤ st.remaining_cash
      · rw [processUpcoming_full today st p hk hA] at h; exact Or.inl h
      · by_cases hB : 0 < st.remaining_cash ∧ daysToDue today p.2 ≤ 7
        · rw [processUpcoming_partialBranch today st p hk hA hB.1 hB.2] at h
          exact Or.inr (Or.inl h)
        · rw [processUpcoming_defer today st p hk hA hB] at h; exact Or.inr (Or.inr h)
    rcases h' with h' | h' | h' <;>
      rcases List.mem_append.1 h' with hm | hm <;>
      first
        | exact Or.inl hm
        | · have hq := List.mem_singleton.1 hm
            subst hq
            exact Or.inr ⟨rfl, rfl⟩

theorem foldl_critical_rec_mem (today : Int) (l : List (Nat × Obligation)) (st : AllocState)
    (q : Entry) (h : q ∈ (l.foldl (processCritical today) st).recommendations) :
    q ∈ st.recommendations ∨
      (q.1 ∈ l ∧ q.2.priority_score = criticalScore today q.1.2) := by
  induction l generalizing st with
  | nil => exact Or.inl h
  | cons a l ih =>
    rw [List.foldl_cons] at h
    rcases ih (processCritical today st a) h with h' | h'
    · rcases processCritical_rec_mem today st a q h' with h'' | ⟨he, hs⟩
      · exact Or.inl h''
      · exact Or.inr ⟨he ▸ List.mem_cons_self a l, by rw [he]; exact hs⟩
    · exact Or.inr ⟨List.mem_cons_of_mem a h'.1, h'.2⟩

theorem foldl_pastDue_rec_mem (today : Int) (l : List (Nat × Obligation)) (st : AllocState)
    (q : Entry) (h : q ∈ (l.foldl (processPastDue today) st).recommendations) :
    q ∈ st.recommendations ∨
      (q.1 ∈ l ∧ q.2.priority_score = pastDueScore today q.1.2) := by
  induction l generalizing st with
  | nil => exact Or.inl h
  | cons a l ih =>
    rw [List.foldl_cons] at h
    rcases ih (processPastDue today st a) h with h' | h'
    · rcases processPastDue_rec_mem today st a q h' with h'' | ⟨he, hs⟩
      · exact Or.inl h''
      · exact Or.inr ⟨he ▸ List.mem_cons_self a l, by rw [he]; exact hs⟩
    · exact Or.inr ⟨List.mem_cons_of_mem a h'.1, h'.2⟩

theorem foldl_upcoming_rec_mem (today : Int) (l : List (Nat × Obligation)) (st : AllocState)
    (q : Entry) (h : q ∈ (l.foldl (processUpcoming today) st).recommendations) :
    q ∈ st.recommendations ∨
      (q.1 ∈ l ∧ q.2.priority_score = upcomingScore today q.1.2) := by
  induction l generalizing st with
  | nil => exact Or.inl h
  | cons a l ih =>
    rw [List.foldl_cons] at h
    rcases ih (processUpcoming today st a) h with h' | h'
    · rcases processUpcoming_rec_mem today st a q h' with h'' | ⟨he, hs⟩
      · exact Or.inl h''
      · exact Or.inr ⟨he ▸ List.mem_cons_self a l, by rw [he]; exact hs⟩
    · exact Or.inr ⟨List.mem_cons_of_mem a h'.1, h'.2⟩

theorem mem_criticalGroup {unpaid_expenses : List Obligation} {p : Nat × Obligation}
    (h : p ∈ criticalGroup unpaid_expenses) :
    p ∈ unpaid_expenses.enum ∧ p.2.due_date.isSome = true ∧
      isCriticalExpense p.2 = true := by
  unfold criticalGroup at h
  have h1 := List.mem_filter.1 h
  have h2 := List.mem_filter.1 h1.1
  exact ⟨h2.1, h2.2, h1.2⟩

theorem mem_pastDueGroup {today : Int} {unpaid_expenses : List Obligation}
    {p : Nat × Obligation} (h : p ∈ pastDueGroup today unpaid_expenses) :
    p ∈ unpaid_expenses.enum ∧ p.2.due_date.isSome = true ∧
      isCriticalExpense p.2 = false ∧ dueKey p.2 < today := by
  unfold pastDueGroup at h
  have h1 := List.mem_filter.1 h
  have h2 := List.mem_filter.1 h1.1
  have h3 := h1.2
  simp only [Bool.and_eq_true, Bool.not_eq_true', decide_eq_true_eq] at h3
  exact ⟨h2.1, h2.2, h3.1, h3.2⟩

theorem mem_upcomingGroup {today : Int} {unpaid_expenses : List Obligation}
    {p : Nat × Obligation} (h : p ∈ upcomingGroup today unpaid_expenses) :
    p ∈ unpaid_expenses.enum ∧ p.2.due_date.isSome = true ∧
      isCriticalExpense p.2 = false ∧ ¬ dueKey p.2 < today := by
  unfold upcomingGroup at h
  have h1 := List.mem_filter.1 h
  have h2 := List.mem_filter.1 h1.1
  have h3 := h1.2
  simp only [Bool.and_eq_true, Bool.not_eq_true', decide_eq_false_iff_not] at h3
  exact ⟨h2.1, h2.2, h3.1, h3.2⟩

/-- Every decision's obligation comes from one of the three sorted groups. -/
theorem finalState_rec_key_mem (today : Int) (unpaid_expenses : List Obligation)
    (available_cash : ℚ) (q : Entry)
    (h : q ∈ (finalState today unpaid_expenses available_cash).recommendations) :
    q.1 ∈ criticalGroup unpaid_expenses ∨ q.1 ∈ pastDueGroup today unpaid_expenses ∨
      q.1 ∈ upcomingGroup today unpaid_expenses := by
  unfold finalState at h
  rcases foldl_upcoming_rec_mem _ _ _ q h with h' | h'
  · rcases foldl_pastDue_rec_mem _ _ _ q h' with h'' | h''
    · rcases foldl_critical_rec_mem _ _ _ q h'' with h3 | h3
      · simp at h3
      · exact Or.inl ((List.mem_insertionSort dueLE).1 h3.1)
    · exact Or.inr (Or.inl ((List.mem_insertionSort dueLE).1 h''.1))
  · exact Or.inr (Or.inr ((List.mem_insertionSort dueLE).1 h'.1))

/-- C2 (amended): an obligation with a null `due_date` never appears in the
decision list and consumes no cash (`remaining_cash` is `available_cash`
minus the payments of the returned decisions, all of which belong to
obligations with a due date) — but its amount IS included in the summary's
`total_pending`, which sums over the entire input list. -/
theorem C2_missing_due_date_exclusion (today : Int) (unpaid_expenses : List Obligation)
    (available_cash : ℚ) :
    (∀ q ∈ (run_timeline_cash_flow_analysis today unpaid_expenses
        available_cash).recommendations, q.1.2.due_date.isSome = true) ∧
    (run_timeline_cash_flow_analysis today unpaid_expenses
        available_cash).summary.total_pending =
      (unpaid_expenses.map fun e => e.amount).sum ∧
    (run_timeline_cash_flow_analysis today unpaid_expenses
        available_cash).summary.remaining_cash =
      (run_timeline_cash_flow_analysis today unpaid_expenses
          available_cash).summary.available_cash -
        paymentsSum (run_timeline_cash_flow_analysis today unpaid_expenses
            available_cash).recommendations := by
  have hInv := run_stateInv today unpaid_expenses available_cash
  refine ⟨?_, rfl, ?_⟩
  · intro q hq
    rw [run_eq] at hq
    dsimp only at hq
    rcases finalState_rec_key_mem today unpaid_expenses available_cash q hq with h | h | h
    · exact (mem_criticalGroup h).2.1
    · exact (mem_pastDueGroup h).2.1
    · exact (mem_upcomingGroup h).2.1
  · rw [run_eq]
    dsimp only
    have h1 := hInv.1
    have h2 := hInv.2
    rw [← h2]
    linarith

/-- C2 as stated is false: a single obligation with `due_date = null` and
amount 100 yields an empty decision list (the true part) but
`total_pending = 100`, not 0 — its amount is NOT excluded from
`total_pending` (line 183 sums over the whole input). -/
theorem C2_counterexample :
    (run_timeline_cash_flow_analysis 0
        [{ id := 1, amount := 100, due_date := none, urgency := Urgency.Medium,
           is_critical_vendor := false }] 50).recommendations = [] ∧
    (run_timeline_cash_flow_analysis 0
        [{ id := 1, amount := 100, due_date := none, urgency := Urgency.Medium,
           is_critical_vendor := false }] 50).summary.total_pending = 100 ∧
    ¬ ((run_timeline_cash_flow_analysis 0
        [{ id := 1, amount := 100, due_date := none, urgency := Urgency.Medium,
           is_critical_vendor := false }] 50).summary.total_pending = 0) := by
  refine ⟨?_, ?_, ?_⟩ <;>
    simp [run_timeline_cash_flow_analysis, finalState, criticalGroup, pastDueGroup,
      upcomingGroup, List.insertionSort, List.orderedInsert, processCritical, processPastDue,
      processUpcoming, isCriticalExpense, dueKey, paymentsSum, totalPendingOf]

/-- C3 (amended): a zero-or-negative-amount obligation is NOT skipped. It is
processed like any other obligation: with non-negative cash the
`remaining_cash >= amount` branch is taken, so it receives status Full with
`payment_amount = amount ≤ 0`, and `remaining_cash` becomes
`available_cash - amount ≥ available_cash` (a negative amount increases the
cash available to later obligations). The batch does not fail. -/
theorem C3_nonpositive_amount_processed (today d : Int) (available_cash : ℚ) (e : Obligation)
    (hd : e.due_date = some d) (ha : e.amount ≤ 0) (hc : 0 ≤ available_cash) :
    (∃ dec : Decision,
      (run_timeline_cash_flow_analysis today [e] available_cash).recommendations =
        [((0, e), dec)] ∧
      dec.payment_status = PayStatus.Full ∧ dec.payment_amount = e.amount) ∧
    (run_timeline_cash_flow_analysis today [e] available_cash).summary.remaining_cash =
      available_cash - e.amount := by
  have hsome : e.due_date.isSome = true := by rw [hd]; rfl
  have hA : e.amount ≤ available_cash := le_trans ha hc
  rw [run_eq]
  dsimp only
  unfold finalState
  cases hcrit : isCriticalExpense e with
  | true =>
    have hC : List.insertionSort dueLE (criticalGroup [e]) = [(0, e)] := by
      simp [criticalGroup, hsome, hcrit, List.insertionSort]
    have hP : List.insertionSort dueLE (pastDueGroup today [e]) = [] := by
      simp [pastDueGroup, hsome, hcrit, List.insertionSort]
    have hU : List.insertionSort dueLE (upcomingGroup today [e]) = [] := by
      simp [upcomingGroup, hsome, hcrit, List.insertionSort]
    rw [hC, hP, hU]
    simp only [List.foldl_cons, List.foldl_nil]
    rw [processCritical_full today ⟨available_cash, 0, []⟩ (0, e) hA]
    exact ⟨⟨_, rfl, rfl, rfl⟩, rfl⟩
  | false =>
    by_cases hpast : dueKey e < today
    · have hC : List.insertionSort dueLE (criticalGroup [e]) = [] := by
        simp [criticalGroup, hsome, hcrit, List.insertionSort]
      have hP : List.insertionSort dueLE (pastDueGroup today [e]) = [(0, e)] := by
        simp [pastDueGroup, hsome, hcrit, hpast, List.insertionSort]
      have hU : List.insertionSort dueLE (upcomingGroup today [e]) = [] := by
        simp [upcomingGroup, hsome, hcrit, hpast, List.insertionSort]
      rw [hC, hP, hU]
      simp only [List.foldl_cons, List.foldl_nil]
      rw [processPastDue_full today ⟨available_cash, 0, []⟩ (0, e) hA]
      exact ⟨⟨_, rfl, rfl, rfl⟩, rfl⟩
    · have hC : List.insertionSort dueLE (criticalGroup [e]) = [] := by
        simp [criticalGroup, hsome, hcrit, List.insertionSort]
      have hP : List.insertionSort dueLE (pastDueGroup today [e]) = [] := by
        simp [pastDueGroup, hsome, hcrit, hpast, List.insertionSort]
      have hU : List.insertionSort dueLE (upcomingGroup today [e]) = [(0, e)] := by
        simp [upcomingGroup, hsome, hcrit, hpast, List.insertionSort]
      rw [hC, hP, hU]
      simp only [List.foldl_cons, List.foldl_nil]
      rw [processUpcoming_full today ⟨available_cash, 0, []⟩ (0, e) (by simp [keysOf]) hA]
      exact ⟨⟨_, rfl, rfl, rfl⟩, rfl⟩

/-- Witness instantiating `C3_nonpositive_amount_processed` with a
zero-amount obligation. -/
theorem C3_nonpositive_amount_processed_witness :
    (∃ dec : Decision,
      (run_timeline_cash_flow_analysis 0
          [{ id := 1, amount := 0, due_date := some 5, urgency := Urgency.Medium,
             is_critical_vendor := false }] 10).recommendations =
        [((0, { id := 1, amount := 0, due_date := some 5, urgency := Urgency.Medium,
                is_critical_vendor := false }), dec)] ∧
      dec.payment_status = PayStatus.Full ∧
      dec.payment_amount = ({ id := 1, amount := 0, due_date := some 5,
                              urgency := Urgency.Medium,
                              is_critical_vendor := false } : Obligation).amount) ∧
    (run_timeline_cash_flow_analysis 0
        [{ id := 1, amount := 0, due_date := some 5, urgency := Urgency.Medium,
           is_critical_vendor := false }] 10).summary.remaining_cash =
      10 - ({ id := 1, amount := 0, due_date := some 5, urgency := Urgency.Medium,
              is_critical_vendor := false } : Obligation).amount :=
  C3_nonpositive_amount_processed 0 5 10
    { id := 1, amount := 0, due_date := some 5, urgency := Urgency.Medium,
      is_critical_vendor := false } rfl (by norm_num) (by norm_num)

/-- C3 as stated is false: a critical obligation with amount `-5` and
`available_cash = 0` is not skipped — it is assigned status Full with the
non-positive `payment_amount = -5`, and it increases the cash:
`remaining_cash` ends at 5 although `available_cash` was 0. -/
theorem C3_counterexample :
    (run_timeline_cash_flow_analysis 0
        [{ id := 1, amount := -5, due_date := some (-1), urgency := Urgency.Critical,
           is_critical_vendor := false }] 0).recommendations.map
      (fun q => (q.2.payment_status, q.2.payment_amount)) = [(PayStatus.Full, -5)] ∧
    (run_timeline_cash_flow_analysis 0
        [{ id := 1, amount := -5, due_date := some (-1), urgency := Urgency.Critical,
           is_critical_vendor := false }] 0).summary.remaining_cash = 5 ∧
    ¬ ((run_timeline_cash_flow_analysis 0
        [{ id := 1, amount := -5, due_date := some (-1), urgency := Urgency.Critical,
           is_critical_vendor := false }] 0).summary.remaining_cash ≤
        (run_timeline_cash_flow_analysis 0
        [{ id := 1, amount := -5, due_date := some (-1), urgency := Urgency.Critical,
           is_critical_vendor := false }] 0).summary.available_cash) := by
  refine ⟨?_, ?_, ?_⟩ <;>
    simp [run_timeline_cash_flow_analysis, finalState, criticalGroup, pastDueGroup,
      upcomingGroup, List.insertionSort, List.orderedInsert, processCritical, processPastDue,
      processUpcoming, isCriticalExpense, dueKey, paymentsSum, totalPendingOf]

/-- Sum of the obligation amounts of a group. -/
def amountsSum (l : List (Nat × Obligation)) : ℚ :=
  (l.map fun p => p.2.amount).sum

theorem amountsSum_cons (a : Nat × Obligation) (l : List (Nat × Obligation)) :
    amountsSum (a :: l) = a.2.amount + amountsSum l := by
  simp [amountsSum]

theorem amountsSum_nonneg (l : List (Nat × Obligation))
    (h : ∀ p ∈ l, 0 ≤ p.2.amount) : 0 ≤ amountsSum l := by
  induction l with
  | nil => simp [amountsSum]
  | cons a l ih =>
    rw [amountsSum_cons]
    have h1 := h a (List.mem_cons_self a l)
    have h2 := ih (fun p hp => h p (List.mem_cons_of_mem a hp))
    linarith

theorem amountsSum_filter_le (l : List (Nat × Obligation)) (pf : (Nat × Obligation) → Bool)
    (h : ∀ p ∈ l, 0 ≤ p.2.amount) : amountsSum (l.filter pf) ≤ amountsSum l := by
  induction l with
  | nil => simp [amountsSum]
  | cons a l ih =>
    have h1 := h a (List.mem_cons_self a l)
    have h2 := ih (fun p hp => h p (List.mem_cons_of_mem a hp))
    rw [List.filter_cons]
    cases pf a
    · simp only [Bool.false_eq_true, if_false, amountsSum_cons]
      linarith
    · simp only [if_true, amountsSum_cons]
      linarith

theorem amountsSum_filter_split (l : List (Nat × Obligation))
    (pf : (Nat × Obligation) → Bool) :
    amountsSum (l.filter pf) + amountsSum (l.filter fun a => !pf a) = amountsSum l := by
  induction l with
  | nil => simp [amountsSum]
  | cons a l ih =>
    rw [List.filter_cons, List.filter_cons]
    cases hpa : pf a <;>
      simp only [Bool.not_false, Bool.not_true, Bool.false_eq_true, Bool.true_eq_false,
        if_false, if_true, amountsSum_cons] <;> linarith

theorem amountsSum_insertionSort (l : List (Nat × Obligation)) :
    amountsSum (List.insertionSort dueLE l) = amountsSum l := by
  unfold amountsSum
  exact ((List.perm_insertionSort dueLE l).map fun p => p.2.amount).sum_eq

theorem amountsSum_enum (l : List Obligation) :
    amountsSum l.enum = totalPendingOf l := by
  unfold amountsSum totalPendingOf
  conv_rhs => rw [← List.enum_map_snd l, List.map_map]
  rfl

theorem amountsSum_filter_and_split (l : List (Nat × Obligation))
    (c d : (Nat × Obligation) → Bool) :
    amountsSum (l.filter fun a => c a && d a) +
      amountsSum (l.filter fun a => c a && !d a) = amountsSum (l.filter c) := by
  induction l with
  | nil => simp [amountsSum]
  | cons a l ih =>
    rw [List.filter_cons, List.filter_cons, List.filter_cons]
    cases hc : c a <;> cases hd : d a <;>
      simp only [hc, hd, Bool.false_and, Bool.true_and, Bool.not_false, Bool.not_true,
        Bool.false_eq_true, Bool.true_eq_false, Bool.and_self, if_false, if_true,
        amountsSum_cons] <;> linarith

/-- The three groups' amounts sum to the amounts of the due-dated
obligations, which is at most `total_pending`. -/
theorem groups_amountsSum_le (today : Int) (unpaid_expenses : List Obligation)
    (h : ∀ e ∈ unpaid_expenses, 0 ≤ e.amount) :
    amountsSum (criticalGroup unpaid_expenses) +
      amountsSum (pastDueGroup today unpaid_expenses) +
      amountsSum (upcomingGroup today unpaid_expenses) ≤
      totalPendingOf unpaid_expenses := by
  have henum : ∀ p ∈ unpaid_expenses.enum, 0 ≤ p.2.amount := by
    intro p hp
    have : p.2 ∈ unpaid_expenses := by
      have := List.mem_map_of_mem Prod.snd hp
      rwa [List.enum_map_snd] at this
    exact h p.2 this
  set wd := unpaid_expenses.enum.filter fun p => p.2.due_date.isSome with hwd
  have hwdpos : ∀ p ∈ wd, 0 ≤ p.2.amount := fun p hp => henum p (List.mem_filter.1 hp).1
  have hsplit1 : amountsSum (wd.filter fun p => isCriticalExpense p.2) +
      amountsSum (wd.filter fun p => !isCriticalExpense p.2) = amountsSum wd :=
    amountsSum_filter_split wd _
  have hsplit2 : amountsSum (wd.filter fun p =>
        !isCriticalExpense p.2 && decide (dueKey p.2 < today)) +
      amountsSum (wd.filter fun p =>
        !isCriticalExpense p.2 && !decide (dueKey p.2 < today)) =
      amountsSum (wd.filter fun p => !isCriticalExpense p.2) :=
    amountsSum_filter_and_split wd (fun p => !isCriticalExpense p.2)
      (fun p => decide (dueKey p.2 < today))
  have hle : amountsSum wd ≤ amountsSum unpaid_expenses.enum :=
    amountsSum_filter_le unpaid_expenses.enum _ henum
  rw [← amountsSum_enum]
  unfold criticalGroup pastDueGroup upcomingGroup
  rw [← hwd]
  linarith

/-- Entry produced for a critical obligation paid in full. -/
def fullCriticalEntry (today : Int) (p : Nat × Obligation) : Entry :=
  (p, ⟨PayStatus.Full, p.2.amount, criticalScore today p.2,
       "Critical vendor or expense marked as critical"⟩)

/-- Entry produced for a past-due obligation paid in full. -/
def fullPastDueEntry (today : Int) (p : Nat × Obligation) : Entry :=
  (p, ⟨PayStatus.Full, p.2.amount, pastDueScore today p.2,
       "Past due by " ++ toString (daysOverdue today p.2) ++ " days"⟩)

/-- Entry produced for an upcoming obligation paid in full. -/
def fullUpcomingEntry (today : Int) (p : Nat × Obligation) : Entry :=
  (p, ⟨PayStatus.Full, p.2.amount, upcomingScore today p.2,
       "Due in " ++ toString (daysToDue today p.2) ++ " days, sufficient funds available"⟩)

/-- Entry produced for a deferred critical obligation. -/
def deferCriticalEntry (today : Int) (p : Nat × Obligation) : Entry :=
  (p, ⟨PayStatus.Defer, 0, criticalScore today p.2,
       "Critical expense deferred due to insufficient funds"⟩)

/-- Entry produced for a deferred past-due obligation. -/
def deferPastDueEntry (today : Int) (p : Nat × Obligation) : Entry :=
  (p, ⟨PayStatus.Defer, 0, pastDueScore today p.2,
       "Past due expense deferred due to insufficient funds"⟩)

/-- Entry produced for a deferred upcoming obligation. -/
def deferUpcomingEntry (today : Int) (p : Nat × Obligation) : Entry :=
  (p, ⟨PayStatus.Defer, 0, upcomingScore today p.2,
       "Due in " ++ toString (daysToDue today p.2) ++
         " days, deferred based on timeline analysis"⟩)

theorem keysOf_map (l : List (Nat × Obligation)) (f : (Nat × Obligation) → Entry)
    (hf : ∀ p, (f p).1 = p) : keysOf (l.map f) = l := by
  induction l with
  | nil => rfl
  | cons a l ih =>
    simp only [List.map_cons, keysOf, List.map] at *
    rw [hf a]
    exact congrArg (a :: ·) ih

/-- If the remaining cash covers the whole critical group, every critical
obligation is paid in full, in order. -/
theorem foldl_critical_full (today : Int) (l : List (Nat × Obligation)) (st : AllocState)
    (hpos : ∀ p ∈ l, 0 ≤ p.2.amount) (hle : amountsSum l ≤ st.remaining_cash) :
    l.foldl (processCritical today) st =
      ⟨st.remaining_cash - amountsSum l, st.total_recommended + amountsSum l,
        st.recommendations ++ l.map (fullCriticalEntry today)⟩ := by
  induction l generalizing st with
  | nil => simp [amountsSum]
  | cons a l ih =>
    have h0 : 0 ≤ amountsSum l :=
      amountsSum_nonneg l (fun p hp => hpos p (List.mem_cons_of_mem a hp))
    have hs : amountsSum (a :: l) = a.2.amount + amountsSum l := amountsSum_cons a l
    rw [hs] at hle
    have ha : a.2.amount ≤ st.remaining_cash := by linarith
    rw [List.foldl_cons, processCritical_full today st a ha,
      ih _ (fun p hp => hpos p (List.mem_cons_of_mem a hp)) (by dsimp only; linarith)]
    simp only [AllocState.mk.injEq, hs]
    refine ⟨by ring, by ring, ?_⟩
    dsimp only
    rw [List.map_cons, List.append_assoc, List.singleton_append]
    rfl

/-- If the remaining cash covers the whole past-due group, every past-due
obligation is paid in full, in order. -/
theorem foldl_pastDue_full (today : Int) (l : List (Nat × Obligation)) (st : AllocState)
    (hpos : ∀ p ∈ l, 0 ≤ p.2.amount) (hle : amountsSum l ≤ st.remaining_cash) :
    l.foldl (processPastDue today) st =
      ⟨st.remaining_cash - amountsSum l, st.total_recommended + amountsSum l,
        st.recommendations ++ l.map (fullPastDueEntry today)⟩ := by
  induction l generalizing st with
  | nil => simp [amountsSum]
  | cons a l ih =>
    have h0 : 0 ≤ amountsSum l :=
      amountsSum_nonneg l (fun p hp => hpos p (List.mem_cons_of_mem a hp))
    have hs : amountsSum (a :: l) = a.2.amount + amountsSum l := amountsSum_cons a l
    rw [hs] at hle
    have ha : a.2.amount ≤ st.remaining_cash := by linarith
    rw [List.foldl_cons, processPastDue_full today st a ha,
      ih _ (fun p hp => hpos p (List.mem_cons_of_mem a hp)) (by dsimp only; linarith)]
    simp only [AllocState.mk.injEq, hs]
    refine ⟨by ring, by ring, ?_⟩
    dsimp only
    rw [List.map_cons, List.append_assoc, List.singleton_append]
    rfl

/-- If the remaining cash covers the whole upcoming group and none of its
obligations was already processed, every upcoming obligation is paid in
full, in order. -/
theorem foldl_upcoming_full (today : Int) (l : List (Nat × Obligation)) (st : AllocState)
    (hpos : ∀ p ∈ l, 0 ≤ p.2.amount) (hle : amountsSum l ≤ st.remaining_cash)
    (hk : ∀ p ∈ l, ¬ p ∈ keysOf st.recommendations) (hnd : l.Nodup) :
    l.foldl (processUpcoming today) st =
      ⟨st.remaining_cash - amountsSum l, st.total_recommended + amountsSum l,
        st.recommendations ++ l.map (fullUpcomingEntry today)⟩ := by
  induction l generalizing st with
  | nil => simp [amountsSum]
  | cons a l ih =>
    have h0 : 0 ≤ amountsSum l :=
      amountsSum_nonneg l (fun p hp => hpos p (List.mem_cons_of_mem a hp))
    have hs : amountsSum (a :: l) = a.2.amount + amountsSum l := amountsSum_cons a l
    rw [hs] at hle
    have ha : a.2.amount ≤ st.remaining_cash := by linarith
    have hka := hk a (List.mem_cons_self a l)
    have hstep := processUpcoming_full today st a hka ha
    have hknew : ∀ p ∈ l, ¬ p ∈ keysOf (processUpcoming today st a).recommendations := by
      intro p hp
      rw [hstep]
      dsimp only
      rw [keysOf_append]
      intro hmem
      rcases List.mem_append.1 hmem with hmem | hmem
      · exact hk p (List.mem_cons_of_mem a hp) hmem
      · have hpa : p = a := List.mem_singleton.1 hmem
        exact (List.nodup_cons.1 hnd).1 (hpa ▸ hp)
    rw [List.foldl_cons, hstep,
      ih _ (fun p hp => hpos p (List.mem_cons_of_mem a hp)) (by dsimp only; linarith)
        (by rw [← hstep]; exact hknew) (List.Nodup.of_cons hnd)]
    simp only [AllocState.mk.injEq, hs]
    refine ⟨by ring, by ring, ?_⟩
    dsimp only
    rw [List.map_cons, List.append_assoc, List.singleton_append]
    rfl

/-- With no cash left (or negative cash), every critical obligation is
deferred and the state's cash and total are unchanged. -/
theorem foldl_critical_defer (today : Int) (l : List (Nat × Obligation)) (st : AllocState)
    (hpos : ∀ p ∈ l, 0 < p.2.amount) (hnp : st.remaining_cash ≤ 0) :
    l.foldl (processCritical today) st =
      ⟨st.remaining_cash, st.total_recommended,
        st.recommendations ++ l.map (deferCriticalEntry today)⟩ := by
  induction l generalizing st with
  | nil => simp
  | cons a l ih =>
    have ha := hpos a (List.mem_cons_self a l)
    have hA : ¬ a.2.amount ≤ st.remaining_cash := by intro hc; linarith
    have hB : ¬ 0 < st.remaining_cash := not_lt.2 hnp
    rw [List.foldl_cons, processCritical_defer today st a hA hB,
      ih _ (fun p hp => hpos p (List.mem_cons_of_mem a hp)) (by dsimp only; exact hnp)]
    simp only [AllocState.mk.injEq]
    refine ⟨by trivial, by trivial, ?_⟩
    dsimp only
    rw [List.map_cons, List.append_assoc, List.singleton_append]
    rfl

/-- With no cash left (or negative cash), every past-due obligation is
deferred and the state's cash and total are unchanged. -/
theorem foldl_pastDue_defer (today : Int) (l : List (Nat × Obligation)) (st : AllocState)
    (hpos : ∀ p ∈ l, 0 < p.2.amount) (hnp : st.remaining_cash ≤ 0) :
    l.foldl (processPastDue today) st =
      ⟨st.remaining_cash, st.total_recommended,
        st.recommendations ++ l.map (deferPastDueEntry today)⟩ := by
  induction l generalizing st with
  | nil => simp
  | cons a l ih =>
    have ha := hpos a (List.mem_cons_self a l)
    have hA : ¬ a.2.amount ≤ st.remaining_cash := by intro hc; linarith
    have hB : ¬ 0 < st.remaining_cash := not_lt.2 hnp
    rw [List.foldl_cons, processPastDue_defer today st a hA hB,
      ih _ (fun p hp => hpos p (List.mem_cons_of_mem a hp)) (by dsimp only; exact hnp)]
    simp only [AllocState.mk.injEq]
    refine ⟨by trivial, by trivial, ?_⟩
    dsimp only
    rw [List.map_cons, List.append_assoc, List.singleton_append]
    rfl

/-- With no cash left (or negative cash), every upcoming obligation not yet
processed is deferred and the state's cash and total are unchanged. -/
theorem foldl_upcoming_defer (today : Int) (l : List (Nat × Obligation)) (st : AllocState)
    (hpos : ∀ p ∈ l, 0 < p.2.amount) (hnp : st.remaining_cash ≤ 0)
    (hk : ∀ p ∈ l, ¬ p ∈ keysOf st.recommendations) (hnd : l.Nodup) :
    l.foldl (processUpcoming today) st =
      ⟨st.remaining_cash, st.total_recommended,
        st.recommendations ++ l.map (deferUpcomingEntry today)⟩ := by
  induction l generalizing st with
  | nil => simp
  | cons a l ih =>
    have ha := hpos a (List.mem_cons_self a l)
    have hA : ¬ a.2.amount ≤ st.remaining_cash := by intro hc; linarith
    have hB : ¬ (0 < st.remaining_cash ∧ daysToDue today a.2 ≤ 7) :=
      fun hc => absurd hc.1 (not_lt.2 hnp)
    have hka := hk a (List.mem_cons_self a l)
    have hstep := processUpcoming_defer today st a hka hA hB
    have hknew : ∀ p ∈ l, ¬ p ∈ keysOf (processUpcoming today st a).recommendations := by
      intro p hp
      rw [hstep]
      dsimp only
      rw [keysOf_append]
      intro hmem
      rcases List.mem_append.1 hmem with hmem | hmem
      · exact hk p (List.mem_cons_of_mem a hp) hmem
      · have hpa : p = a := List.mem_singleton.1 hmem
        exact (List.nodup_cons.1 hnd).1 (hpa ▸ hp)
    rw [List.foldl_cons, hstep,
      ih _ (fun p hp => hpos p (List.mem_cons_of_mem a hp)) (by dsimp only; exact hnp)
        (by rw [← hstep]; exact hknew) (List.Nodup.of_cons hnd)]
    simp only [AllocState.mk.injEq]
    refine ⟨by trivial, by trivial, ?_⟩
    dsimp only
    rw [List.map_cons, List.append_assoc, List.singleton_append]
    rfl

theorem enum_nodup (l : List Obligation) : l.enum.Nodup :=
  List.Nodup.of_map Prod.fst (by rw [List.enum_map_fst]; exact List.nodup_range _)

theorem criticalGroup_nodup (unpaid_expenses : List Obligation) :
    (criticalGroup unpaid_expenses).Nodup :=
  ((enum_nodup unpaid_expenses).filter _).filter _

theorem pastDueGroup_nodup (today : Int) (unpaid_expenses : List Obligation) :
    (pastDueGroup today unpaid_expenses).Nodup :=
  ((enum_nodup unpaid_expenses).filter _).filter _

theorem upcomingGroup_nodup (today : Int) (unpaid_expenses : List Obligation) :
    (upcomingGroup today unpaid_expenses).Nodup :=
  ((enum_nodup unpaid_expenses).filter _).filter _

theorem upcomingGroup_disjoint (today : Int) (unpaid_expenses : List Obligation)
    (p : Nat × Obligation) (hp : p ∈ upcomingGroup today unpaid_expenses) :
    ¬ p ∈ criticalGroup unpaid_expenses ∧ ¬ p ∈ pastDueGroup today unpaid_expenses := by
  have hu := mem_upcomingGroup hp
  constructor
  · intro hc
    have := (mem_criticalGroup hc).2.2
    rw [hu.2.2.1] at this
    exact Bool.false_ne_true this
  · intro hc
    exact hu.2.2.2 (mem_pastDueGroup hc).2.2.2

theorem pastDueGroup_disjoint (today : Int) (unpaid_expenses : List Obligation)
    (p : Nat × Obligation) (hp : p ∈ pastDueGroup today unpaid_expenses) :
    ¬ p ∈ criticalGroup unpaid_expenses := by
  intro hc
  have := (mem_criticalGroup hc).2.2
  rw [(mem_pastDueGroup hp).2.2.1] at this
  exact Bool.false_ne_true this

theorem mem_enum_snd {l : List Obligation} {p : Nat × Obligation} (hp : p ∈ l.enum) :
    p.2 ∈ l := by
  have := List.mem_map_of_mem Prod.snd hp
  rwa [List.enum_map_snd] at this

/-- Amount positivity transfers from the input list to any sorted group. -/
theorem sort_amount_pos (today : Int) {unpaid_expenses : List Obligation}
    (hpos : ∀ e ∈ unpaid_expenses, 0 < e.amount)
    (g : List (Nat × Obligation))
    (hg : ∀ p ∈ g, p ∈ unpaid_expenses.enum) :
    ∀ p ∈ List.insertionSort dueLE g, 0 < p.2.amount := by
  intro p hp
  exact hpos p.2 (mem_enum_snd (hg p ((List.mem_insertionSort dueLE).1 hp)))

/-- The keys present after the critical and past-due loops, starting from
the empty state. -/
theorem keys_after_two_loops (today : Int) (unpaid_expenses : List Obligation)
    (available_cash : ℚ) :
    keysOf (((List.insertionSort dueLE (pastDueGroup today unpaid_expenses)).foldl
        (processPastDue today)
        ((List.insertionSort dueLE (criticalGroup unpaid_expenses)).foldl
          (processCritical today) ⟨available_cash, 0, []⟩)).recommendations) =
      List.insertionSort dueLE (criticalGroup unpaid_expenses) ++
        List.insertionSort dueLE (pastDueGroup today unpaid_expenses) := by
  rw [foldl_pastDue_keys, foldl_critical_keys]
  simp [keysOf]

/-- An obligation of the upcoming group is never among the keys produced by
the first two loops. -/
theorem upcoming_not_in_keys (today : Int) (unpaid_expenses : List Obligation)
    (available_cash : ℚ) :
    ∀ p ∈ List.insertionSort dueLE (upcomingGroup today unpaid_expenses),
      ¬ p ∈ keysOf (((List.insertionSort dueLE (pastDueGroup today unpaid_expenses)).foldl
          (processPastDue today)
          ((List.insertionSort dueLE (criticalGroup unpaid_expenses)).foldl
            (processCritical today) ⟨available_cash, 0, []⟩)).recommendations) := by
  intro p hp
  rw [keys_after_two_loops]
  intro hmem
  have hu := (List.mem_insertionSort dueLE).1 hp
  rcases List.mem_append.1 hmem with hmem | hmem
  · exact (upcomingGroup_disjoint today unpaid_expenses p hu).1
      ((List.mem_insertionSort dueLE).1 hmem)
  · exact (upcomingGroup_disjoint today unpaid_expenses p hu).2
      ((List.mem_insertionSort dueLE).1 hmem)

theorem upcomingSort_nodup (today : Int) (unpaid_expenses : List Obligation) :
    (List.insertionSort dueLE (upcomingGroup today unpaid_expenses)).Nodup :=
  ((List.perm_insertionSort dueLE _).nodup_iff).2 (upcomingGroup_nodup today unpaid_expenses)

/-- When the available cash covers `total_pending`, the final decision list
pays every classified obligation in full, in processing order. -/
theorem finalState_full_recs (today : Int) (unpaid_expenses : List Obligation)
    (available_cash : ℚ) (hpos : ∀ e ∈ unpaid_expenses, 0 < e.amount)
    (hcover : totalPendingOf unpaid_expenses ≤ available_cash) :
    (finalState today unpaid_expenses available_cash).recommendations =
      (List.insertionSort dueLE (criticalGroup unpaid_expenses)).map
        (fullCriticalEntry today) ++
      (List.insertionSort dueLE (pastDueGroup today unpaid_expenses)).map
        (fullPastDueEntry today) ++
      (List.insertionSort dueLE (upcomingGroup today unpaid_expenses)).map
        (fullUpcomingEntry today) := by
  have hposC := sort_amount_pos today hpos (criticalGroup unpaid_expenses)
    (fun p hp => (mem_criticalGroup hp).1)
  have hposP := sort_amount_pos today hpos (pastDueGroup today unpaid_expenses)
    (fun p hp => (mem_pastDueGroup hp).1)
  have hposU := sort_amount_pos today hpos (upcomingGroup today unpaid_expenses)
    (fun p hp => (mem_upcomingGroup hp).1)
  have hsumle := groups_amountsSum_le today unpaid_expenses
    (fun e he => le_of_lt (hpos e he))
  have hC := amountsSum_insertionSort (criticalGroup unpaid_expenses)
  have hP := amountsSum_insertionSort (pastDueGroup today unpaid_expenses)
  have hU := amountsSum_insertionSort (upcomingGroup today unpaid_expenses)
  have h0C : 0 ≤ amountsSum (List.insertionSort dueLE (criticalGroup unpaid_expenses)) :=
    amountsSum_nonneg _ (fun p hp => le_of_lt (hposC p hp))
  have h0P : 0 ≤ amountsSum (List.insertionSort dueLE (pastDueGroup today unpaid_expenses)) :=
    amountsSum_nonneg _ (fun p hp => le_of_lt (hposP p hp))
  have h0U : 0 ≤ amountsSum (List.insertionSort dueLE (upcomingGroup today unpaid_expenses)) :=
    amountsSum_nonneg _ (fun p hp => le_of_lt (hposU p hp))
  unfold finalState
  rw [foldl_critical_full today _ _ (fun p hp => le_of_lt (hposC p hp))
    (by dsimp only; rw [hC]; linarith)]
  rw [foldl_pastDue_full today _ _ (fun p hp => le_of_lt (hposP p hp))
    (by dsimp only; rw [hP, hC]; linarith)]
  dsimp only
  rw [foldl_upcoming_full today _ _ (fun p hp => le_of_lt (hposU p hp))
    (by dsimp only; rw [hU, hP, hC]; linarith)
    ?_ (upcomingSort_nodup today unpaid_expenses)]
  · dsimp only
    rw [List.nil_append, List.append_assoc]
  · intro p hp
    have := upcoming_not_in_keys today unpaid_expenses available_cash p hp
    rw [keys_after_two_loops] at this
    dsimp only
    rw [List.nil_append, keysOf_append2, keysOf_map _ _ (fun p => rfl),
      keysOf_map _ _ (fun p => rfl)]
    exact this

/-- With non-positive starting cash, the final decision list defers every
classified obligation, in processing order. -/
theorem finalState_defer_recs (today : Int) (unpaid_expenses : List Obligation)
    (available_cash : ℚ) (hpos : ∀ e ∈ unpaid_expenses, 0 < e.amount)
    (hnp : available_cash ≤ 0) :
    (finalState today unpaid_expenses available_cash).recommendations =
      (List.insertionSort dueLE (criticalGroup unpaid_expenses)).map
        (deferCriticalEntry today) ++
      (List.insertionSort dueLE (pastDueGroup today unpaid_expenses)).map
        (deferPastDueEntry today) ++
      (List.insertionSort dueLE (upcomingGroup today unpaid_expenses)).map
        (deferUpcomingEntry today) := by
  have hposC := sort_amount_pos today hpos (criticalGroup unpaid_expenses)
    (fun p hp => (mem_criticalGroup hp).1)
  have hposP := sort_amount_pos today hpos (pastDueGroup today unpaid_expenses)
    (fun p hp => (mem_pastDueGroup hp).1)
  have hposU := sort_amount_pos today hpos (upcomingGroup today unpaid_expenses)
    (fun p hp => (mem_upcomingGroup hp).1)
  unfold finalState
  rw [foldl_critical_defer today _ _ hposC hnp]
  rw [foldl_pastDue_defer today _ _ hposP (by dsimp only; exact hnp)]
  dsimp only
  rw [foldl_upcoming_defer today _ _ hposU (by dsimp only; exact hnp)
    ?_ (upcomingSort_nodup today unpaid_expenses)]
  · dsimp only
    rw [List.nil_append, List.append_assoc]
  · intro p hp
    have hu := (List.mem_insertionSort dueLE).1 hp
    dsimp only
    rw [List.nil_append, keysOf_append2, keysOf_map _ _ (fun p => rfl),
      keysOf_map _ _ (fun p => rfl)]
    intro hmem
    rcases List.mem_append.1 hmem with hmem | hmem
    · exact (upcomingGroup_disjoint today unpaid_expenses p hu).1
        ((List.mem_insertionSort dueLE).1 hmem)
    · exact (upcomingGroup_disjoint today unpaid_expenses p hu).2
        ((List.mem_insertionSort dueLE).1 hmem)

/-- Each classified obligation belongs to one of the three groups. -/
theorem classified_mem_group (today : Int) (unpaid_expenses : List Obligation)
    (p : Nat × Obligation) (hp : p ∈ unpaid_expenses.enum)
    (hsome : p.2.due_date.isSome = true) :
    p ∈ criticalGroup unpaid_expenses ∨ p ∈ pastDueGroup today unpaid_expenses ∨
      p ∈ upcomingGroup today unpaid_expenses := by
  have hwd : p ∈ unpaid_expenses.enum.filter (fun p => p.2.due_date.isSome) :=
    List.mem_filter.2 ⟨hp, hsome⟩
  cases hcrit : isCriticalExpense p.2 with
  | true => exact Or.inl (List.mem_filter.2 ⟨hwd, hcrit⟩)
  | false =>
    by_cases hpast : dueKey p.2 < today
    · refine Or.inr (Or.inl (List.mem_filter.2 ⟨hwd, ?_⟩))
      rw [hcrit]
      simp [hpast]
    · refine Or.inr (Or.inr (List.mem_filter.2 ⟨hwd, ?_⟩))
      rw [hcrit]
      simp [hpast]

/-- C4: if `available_cash ≥ total_pending` and all amounts are positive,
every obligation with a non-null due date receives status Full with
`payment_amount` equal to its amount. -/
theorem C4_full_payment (today : Int) (unpaid_expenses : List Obligation)
    (available_cash : ℚ) (hpos : ∀ e ∈ unpaid_expenses, 0 < e.amount)
    (hcover : (run_timeline_cash_flow_analysis today unpaid_expenses
        available_cash).summary.total_pending ≤ available_cash) :
    ∀ p ∈ unpaid_expenses.enum, p.2.due_date.isSome = true →
      ∃ dec : Decision,
        ((p, dec) ∈ (run_timeline_cash_flow_analysis today unpaid_expenses
            available_cash).recommendations ∧
          dec.payment_status = PayStatus.Full ∧ dec.payment_amount = p.2.amount) := by
  have hcover' : totalPendingOf unpaid_expenses ≤ available_cash := hcover
  intro p hp hsome
  rw [run_eq]
  dsimp only
  rw [finalState_full_recs today unpaid_expenses available_cash hpos hcover']
  rcases classified_mem_group today unpaid_expenses p hp hsome with hg | hg | hg
  · refine ⟨(fullCriticalEntry today p).2, ?_, rfl, rfl⟩
    exact List.mem_append.2 (Or.inl (List.mem_append.2 (Or.inl
      (List.mem_map_of_mem (fullCriticalEntry today) ((List.mem_insertionSort dueLE).2 hg)))))
  · refine ⟨(fullPastDueEntry today p).2, ?_, rfl, rfl⟩
    exact List.mem_append.2 (Or.inl (List.mem_append.2 (Or.inr
      (List.mem_map_of_mem (fullPastDueEntry today) ((List.mem_insertionSort dueLE).2 hg)))))
  · refine ⟨(fullUpcomingEntry today p).2, ?_, rfl, rfl⟩
    exact List.mem_append.2 (Or.inr
      (List.mem_map_of_mem (fullUpcomingEntry today) ((List.mem_insertionSort dueLE).2 hg)))

/-- Witness instantiating `C4_full_payment`: cash 100 covers both
obligations (amount 30 critical, amount 20 upcoming). -/
theorem C4_full_payment_witness :
    (({ id := 1, amount := 30, due_date := some (-2), urgency := Urgency.Critical,
        is_critical_vendor := false } : Obligation).due_date.isSome = true) ∧
    ∃ dec : Decision,
      (((0, { id := 1, amount := 30, due_date := some (-2), urgency := Urgency.Critical,
              is_critical_vendor := false }), dec) ∈
        (run_timeline_cash_flow_analysis 0
          [{ id := 1, amount := 30, due_date := some (-2), urgency := Urgency.Critical,
             is_critical_vendor := false },
           { id := 2, amount := 20, due_date := some 3, urgency := Urgency.Medium,
             is_critical_vendor := false }] 100).recommendations ∧
        dec.payment_status = PayStatus.Full ∧
        dec.payment_amount = ({ id := 1, amount := 30, due_date := some (-2),
                                urgency := Urgency.Critical,
                                is_critical_vendor := false } : Obligation).amount) :=
  ⟨rfl,
    C4_full_payment 0
      [{ id := 1, amount := 30, due_date := some (-2), urgency := Urgency.Critical,
         is_critical_vendor := false },
       { id := 2, amount := 20, due_date := some 3, urgency := Urgency.Medium,
         is_critical_vendor := false }] 100
      (by intro e he
          simp only [List.mem_cons, List.not_mem_nil, or_false] at he
          rcases he with he | he <;> rw [he] <;> norm_num)
      (by show totalPendingOf _ ≤ _
          norm_num [totalPendingOf])
      (0, { id := 1, amount := 30, due_date := some (-2), urgency := Urgency.Critical,
            is_critical_vendor := false })
      (by simp [List.enum]) rfl⟩

/-- C5: if `available_cash = 0` — and likewise if it is negative — every
obligation with a non-null due date receives status Defer with
`payment_amount = 0`, and the allocator still returns a result (it does not
fail). -/
theorem C5_zero_cash_all_deferred (today : Int) (unpaid_expenses : List Obligation)
    (available_cash : ℚ) (hpos : ∀ e ∈ unpaid_expenses, 0 < e.amount)
    (hnp : available_cash ≤ 0) :
    (∀ q ∈ (run_timeline_cash_flow_analysis today unpaid_expenses
        available_cash).recommendations,
      q.2.payment_status = PayStatus.Defer ∧ q.2.payment_amount = 0) ∧
    (∀ p ∈ unpaid_expenses.enum, p.2.due_date.isSome = true →
      ∃ dec : Decision,
        ((p, dec) ∈ (run_timeline_cash_flow_analysis today unpaid_expenses
            available_cash).recommendations ∧
          dec.payment_status = PayStatus.Defer ∧ dec.payment_amount = 0)) := by
  rw [run_eq]
  dsimp only
  rw [finalState_defer_recs today unpaid_expenses available_cash hpos hnp]
  constructor
  · intro q hq
    rcases List.mem_append.1 hq with hq | hq
    · rcases List.mem_append.1 hq with hq | hq
      · rcases List.mem_map.1 hq with ⟨p, _, hpq⟩
        rw [← hpq]
        exact ⟨rfl, rfl⟩
      · rcases List.mem_map.1 hq with ⟨p, _, hpq⟩
        rw [← hpq]
        exact ⟨rfl, rfl⟩
    · rcases List.mem_map.1 hq with ⟨p, _, hpq⟩
      rw [← hpq]
      exact ⟨rfl, rfl⟩
  · intro p hp hsome
    rcases classified_mem_group today unpaid_expenses p hp hsome with hg | hg | hg
    · refine ⟨(deferCriticalEntry today p).2, ?_, rfl, rfl⟩
      exact List.mem_append.2 (Or.inl (List.mem_append.2 (Or.inl
        (List.mem_map_of_mem (deferCriticalEntry today)
          ((List.mem_insertionSort dueLE).2 hg)))))
    · refine ⟨(deferPastDueEntry today p).2, ?_, rfl, rfl⟩
      exact List.mem_append.2 (Or.inl (List.mem_append.2 (Or.inr
        (List.mem_map_of_mem (deferPastDueEntry today)
          ((List.mem_insertionSort dueLE).2 hg)))))
    · refine ⟨(deferUpcomingEntry today p).2, ?_, rfl, rfl⟩
      exact List.mem_append.2 (Or.inr
        (List.mem_map_of_mem (deferUpcomingEntry today)
          ((List.mem_insertionSort dueLE).2 hg)))

/-- Witness instantiating `C5_zero_cash_all_deferred` at zero cash with one
past-due obligation. -/
theorem C5_zero_cash_all_deferred_witness :
    (∀ q ∈ (run_timeline_cash_flow_analysis 0
        [{ id := 1, amount := 40, due_date := some (-3), urgency := Urgency.High,
           is_critical_vendor := false }] 0).recommendations,
      q.2.payment_status = PayStatus.Defer ∧ q.2.payment_amount = 0) ∧
    (∀ p ∈ ([{ id := 1, amount := 40, due_date := some (-3), urgency := Urgency.High,
               is_critical_vendor := false }] : List Obligation).enum,
      p.2.due_date.isSome = true →
      ∃ dec : Decision,
        ((p, dec) ∈ (run_timeline_cash_flow_analysis 0
            [{ id := 1, amount := 40, due_date := some (-3), urgency := Urgency.High,
               is_critical_vendor := false }] 0).recommendations ∧
          dec.payment_status = PayStatus.Defer ∧ dec.payment_amount = 0)) :=
  C5_zero_cash_all_deferred 0
    [{ id := 1, amount := 40, due_date := some (-3), urgency := Urgency.High,
       is_critical_vendor := false }] 0
    (by intro e he
        simp only [List.mem_cons, List.not_mem_nil, or_false] at he
        rw [he]
        norm_num)
    le_rfl

/-- The decision keys of a whole run are exactly the three sorted groups,
concatenated in Critical → PastDue → Upcoming order. -/
theorem finalState_keys (today : Int) (unpaid_expenses : List Obligation)
    (available_cash : ℚ) :
    keysOf (finalState today unpaid_expenses available_cash).recommendations =
      List.insertionSort dueLE (criticalGroup unpaid_expenses) ++
        List.insertionSort dueLE (pastDueGroup today unpaid_expenses) ++
        List.insertionSort dueLE (upcomingGroup today unpaid_expenses) := by
  unfold finalState
  rw [foldl_upcoming_keys today _ _
    (upcoming_not_in_keys today unpaid_expenses available_cash)
    (upcomingSort_nodup today unpaid_expenses), keys_after_two_loops]

/-- C7: allocation processes the groups in the order Critical, PastDue,
Upcoming, each sorted ascending by due date; in particular, for a Critical
obligation A and a PastDue obligation B with the same due date, A is
allocated cash before B, so when cash covers only A, A is paid in full and
B is not. -/
theorem C7_class_ordering :
    (∀ (today : Int) (unpaid_expenses : List Obligation) (available_cash : ℚ),
      keysOf (run_timeline_cash_flow_analysis today unpaid_expenses
          available_cash).recommendations =
        List.insertionSort dueLE (criticalGroup unpaid_expenses) ++
          List.insertionSort dueLE (pastDueGroup today unpaid_expenses) ++
          List.insertionSort dueLE (upcomingGroup today unpaid_expenses) ∧
      (List.insertionSort dueLE (criticalGroup unpaid_expenses)).Sorted dueLE ∧
      (List.insertionSort dueLE (pastDueGroup today unpaid_expenses)).Sorted dueLE ∧
      (List.insertionSort dueLE (upcomingGroup today unpaid_expenses)).Sorted dueLE) ∧
    (∀ (today d : Int) (available_cash : ℚ) (A B : Obligation),
      isCriticalExpense A = true → isCriticalExpense B = false →
      A.due_date = some d → B.due_date = some d → d < today →
      0 < A.amount → 0 < B.amount →
      A.amount ≤ available_cash → available_cash < A.amount + B.amount →
      (((0, A), (⟨PayStatus.Full, A.amount, criticalScore today A,
          "Critical vendor or expense marked as critical"⟩ : Decision)) ∈
        (run_timeline_cash_flow_analysis today [A, B] available_cash).recommendations ∧
      ∀ dec : Decision,
        ((1, B), dec) ∈
          (run_timeline_cash_flow_analysis today [A, B] available_cash).recommendations →
        dec.payment_status ≠ PayStatus.Full)) := by
  constructor
  · intro today unpaid_expenses available_cash
    refine ⟨?_, List.sorted_insertionSort dueLE _, List.sorted_insertionSort dueLE _,
      List.sorted_insertionSort dueLE _⟩
    rw [run_eq]
    exact finalState_keys today unpaid_expenses available_cash
  · intro today d available_cash A B hcA hcB hdA hdB hdlt hposA hposB hAle hBgt
    have henum : ([A, B] : List Obligation).enum = [(0, A), (1, B)] := rfl
    have hC : List.insertionSort dueLE (criticalGroup [A, B]) = [(0, A)] := by
      unfold criticalGroup
      rw [henum]
      simp [hdA, hdB, hcA, hcB, List.insertionSort, List.orderedInsert]
    have hP : List.insertionSort dueLE (pastDueGroup today [A, B]) = [(1, B)] := by
      unfold pastDueGroup
      rw [henum]
      simp [hdA, hdB, hcA, hcB, dueKey, hdlt, List.insertionSort, List.orderedInsert]
    have hU : List.insertionSort dueLE (upcomingGroup today [A, B]) = [] := by
      unfold upcomingGroup
      rw [henum]
      simp [hdA, hdB, hcA, hcB, dueKey, hdlt, List.insertionSort]
    rw [run_eq]
    dsimp only
    unfold finalState
    rw [hC, hP, hU]
    simp only [List.foldl_cons, List.foldl_nil]
    rw [processCritical_full today ⟨available_cash, 0, []⟩ (0, A) (by dsimp only; exact hAle)]
    have hBnotle : ¬ (1, B).2.amount ≤
        ((⟨available_cash - A.amount, 0 + A.amount,
          [] ++ [((0, A), ⟨PayStatus.Full, A.amount, criticalScore today A,
            "Critical vendor or expense marked as critical"⟩)]⟩ : AllocState)).remaining_cash := by
      dsimp only
      intro hc
      linarith
    by_cases hrem : (0 : ℚ) < available_cash - A.amount
    · rw [processPastDue_partialBranch today _ (1, B) hBnotle (by dsimp only; exact hrem)]
      constructor
      · simp
      · intro dec hdec
        simp only [List.mem_append, List.mem_cons, List.not_mem_nil, or_false,
          List.nil_append, List.mem_singleton, Prod.mk.injEq] at hdec
        rcases hdec with ⟨⟨h01, _⟩, _⟩ | ⟨_, hdec⟩
        · exact absurd h01 (by norm_num)
        · rw [hdec]
          intro hc
          exact PayStatus.noConfusion hc
    · rw [processPastDue_defer today _ (1, B) hBnotle (by dsimp only; exact hrem)]
      constructor
      · simp
      · intro dec hdec
        simp only [List.mem_append, List.mem_cons, List.not_mem_nil, or_false,
          List.nil_append, List.mem_singleton, Prod.mk.injEq] at hdec
        rcases hdec with ⟨⟨h01, _⟩, _⟩ | ⟨_, hdec⟩
        · exact absurd h01 (by norm_num)
        · rw [hdec]
          intro hc
          exact PayStatus.noConfusion hc

/-- Witness instantiating the C7 scenario: cash 10 covers only the critical
obligation A (amount 10); the past-due obligation B (amount 5, same due
date) is not paid in full. -/
theorem C7_class_ordering_witness :
    ((0, ({ id := 1, amount := 10, due_date := some (-1), urgency := Urgency.Critical,
            is_critical_vendor := false } : Obligation)),
       (⟨PayStatus.Full, ({ id := 1, amount := 10, due_date := some (-1),
                            urgency := Urgency.Critical,
                            is_critical_vendor := false } : Obligation).amount,
          criticalScore 0 { id := 1, amount := 10, due_date := some (-1),
                            urgency := Urgency.Critical, is_critical_vendor := false },
          "Critical vendor or expense marked as critical"⟩ : Decision)) ∈
      (run_timeline_cash_flow_analysis 0
        [{ id := 1, amount := 10, due_date := some (-1), urgency := Urgency.Critical,
           is_critical_vendor := false },
         { id := 2, amount := 5, due_date := some (-1), urgency := Urgency.Medium,
           is_critical_vendor := false }] 10).recommendations ∧
    ∀ dec : Decision,
      ((1, ({ id := 2, amount := 5, due_date := some (-1), urgency := Urgency.Medium,
              is_critical_vendor := false } : Obligation)), dec) ∈
        (run_timeline_cash_flow_analysis 0
          [{ id := 1, amount := 10, due_date := some (-1), urgency := Urgency.Critical,
             is_critical_vendor := false },
           { id := 2, amount := 5, due_date := some (-1), urgency := Urgency.Medium,
             is_critical_vendor := false }] 10).recommendations →
      dec.payment_status ≠ PayStatus.Full :=
  C7_class_ordering.2 0 (-1) 10
    { id := 1, amount := 10, due_date := some (-1), urgency := Urgency.Critical,
      is_critical_vendor := false }
    { id := 2, amount := 5, due_date := some (-1), urgency := Urgency.Medium,
      is_critical_vendor := false }
    rfl rfl rfl rfl (by norm_num) (by norm_num) (by norm_num) (by norm_num) (by norm_num)

/-- Bool test for a Partial decision entry. -/
def isPartialEntry (q : Entry) : Bool :=
  decide (q.2.payment_status = PayStatus.Partial)

/-- Invariant behind the at-most-one-Partial property: any Partial already
recorded forces `remaining_cash = 0`, at most one Partial is recorded, and
every entry after a Partial one is a Defer. -/
def PartialInv (st : AllocState) : Prop :=
  (∀ q ∈ st.recommendations, q.2.payment_status = PayStatus.Partial →
    st.remaining_cash = 0) ∧
  st.recommendations.countP isPartialEntry ≤ 1 ∧
  st.recommendations.Pairwise (fun a b => a.2.payment_status = PayStatus.Partial →
    b.2.payment_status = PayStatus.Defer)

theorem partialInv_step_full (st : AllocState) (p : Nat × Obligation) (dec : Decision)
    (hst : PartialInv st) (hnz : 0 < st.remaining_cash)
    (hdec : dec.payment_status = PayStatus.Full) (rem' : ℚ) :
    PartialInv ⟨rem', st.total_recommended + p.2.amount,
      st.recommendations ++ [(p, dec)]⟩ := by
  obtain ⟨h1, h2, h3⟩ := hst
  have hnp : ∀ q ∈ st.recommendations, ¬ q.2.payment_status = PayStatus.Partial := by
    intro q hq hP
    have := h1 q hq hP
    linarith [this ▸ hnz]
  refine ⟨?_, ?_, ?_⟩
  · intro q hq hP
    exfalso
    rcases List.mem_append.1 hq with hq | hq
    · exact hnp q hq hP
    · rw [List.mem_singleton.1 hq] at hP
      dsimp only at hP
      rw [hdec] at hP
      exact PayStatus.noConfusion hP
  · dsimp only
    rw [List.countP_append]
    have hsingle : ([((p : Nat × Obligation), dec)] : List Entry).countP isPartialEntry = 0 := by
      apply List.countP_eq_zero.2
      intro q hq
      rw [List.mem_singleton.1 hq]
      simp [isPartialEntry, hdec]
    rw [hsingle]
    simpa using h2
  · dsimp only
    rw [List.pairwise_append]
    refine ⟨h3, List.pairwise_singleton _ _, ?_⟩
    intro a ha b _ hPa
    exact absurd hPa (hnp a ha)

theorem partialInv_step_partialBranch (st : AllocState) (p : Nat × Obligation) (dec : Decision)
    (hst : PartialInv st) (hnz : 0 < st.remaining_cash)
    (hdec : dec.payment_status = PayStatus.Partial) :
    PartialInv ⟨0, st.total_recommended + st.remaining_cash,
      st.recommendations ++ [(p, dec)]⟩ := by
  obtain ⟨h1, h2, h3⟩ := hst
  have hnp : ∀ q ∈ st.recommendations, ¬ q.2.payment_status = PayStatus.Partial := by
    intro q hq hP
    have := h1 q hq hP
    linarith [this ▸ hnz]
  refine ⟨?_, ?_, ?_⟩
  · intro q _ _
    rfl
  · dsimp only
    rw [List.countP_append]
    have hzero : st.recommendations.countP isPartialEntry = 0 := by
      apply List.countP_eq_zero.2
      intro q hq
      simp [isPartialEntry, hnp q hq]
    rw [hzero]
    have hsingle : ([((p : Nat × Obligation), dec)] : List Entry).countP isPartialEntry ≤ 1 := by
      cases hq : ([((p : Nat × Obligation), dec)] : List Entry).countP isPartialEntry with
      | zero => exact Nat.zero_le 1
      | succ n =>
        have hlen := List.countP_le_length (p := isPartialEntry)
          (l := [((p : Nat × Obligation), dec)])
        simp at hlen
        omega
    omega
  · dsimp only
    rw [List.pairwise_append]
    refine ⟨h3, List.pairwise_singleton _ _, ?_⟩
    intro a ha b _ hPa
    exact absurd hPa (hnp a ha)

theorem partialInv_step_defer (st : AllocState) (p : Nat × Obligation) (dec : Decision)
    (hst : PartialInv st) (hdec : dec.payment_status = PayStatus.Defer) :
    PartialInv ⟨st.remaining_cash, st.total_recommended,
      st.recommendations ++ [(p, dec)]⟩ := by
  obtain ⟨h1, h2, h3⟩ := hst
  refine ⟨?_, ?_, ?_⟩
  · intro q hq hP
    rcases List.mem_append.1 hq with hq | hq
    · exact h1 q hq hP
    · exfalso
      rw [List.mem_singleton.1 hq] at hP
      dsimp only at hP
      rw [hdec] at hP
      exact PayStatus.noConfusion hP
  · dsimp only
    rw [List.countP_append]
    have hsingle : ([((p : Nat × Obligation), dec)] : List Entry).countP isPartialEntry = 0 := by
      apply List.countP_eq_zero.2
      intro q hq
      rw [List.mem_singleton.1 hq]
      simp [isPartialEntry, hdec]
    rw [hsingle]
    simpa using h2
  · dsimp only
    rw [List.pairwise_append]
    refine ⟨h3, List.pairwise_singleton _ _, ?_⟩
    intro a _ b hb _
    rw [List.mem_singleton.1 hb]
    exact hdec

theorem processCritical_partialInv (today : Int) (st : AllocState) (p : Nat × Obligation)
    (hpos : 0 < p.2.amount) (h : PartialInv st) :
    PartialInv (processCritical today st p) := by
  by_cases hA : p.2.amount ≤ st.remaining_cash
  · rw [processCritical_full today st p hA]
    exact partialInv_step_full st p _ h (by linarith) rfl _
  · by_cases hB : 0 < st.remaining_cash
    · rw [processCritical_partialBranch today st p hA hB]
      exact partialInv_step_partialBranch st p _ h hB rfl
    · rw [processCritical_defer today st p hA hB]
      exact partialInv_step_defer st p _ h rfl

theorem processPastDue_partialInv (today : Int) (st : AllocState) (p : Nat × Obligation)
    (hpos : 0 < p.2.amount) (h : PartialInv st) :
    PartialInv (processPastDue today st p) := by
  by_cases hA : p.2.amount ≤ st.remaining_cash
  · rw [processPastDue_full today st p hA]
    exact partialInv_step_full st p _ h (by linarith) rfl _
  · by_cases hB : 0 < st.remaining_cash
    · rw [processPastDue_partialBranch today st p hA hB]
      exact partialInv_step_partialBranch st p _ h hB rfl
    · rw [processPastDue_defer today st p hA hB]
      exact partialInv_step_defer st p _ h rfl

theorem processUpcoming_partialInv (today : Int) (st : AllocState) (p : Nat × Obligation)
    (hpos : 0 < p.2.amount) (h : PartialInv st) :
    PartialInv (processUpcoming today st p) := by
  by_cases hk : p ∈ keysOf st.recommendations
  · rw [processUpcoming_skip today st p hk]
    exact h
  · by_cases hA : p.2.amount ≤ st.remaining_cash
    · rw [processUpcoming_full today st p hk hA]
      exact partialInv_step_full st p _ h (by linarith) rfl _
    · by_cases hB : 0 < st.remaining_cash ∧ daysToDue today p.2 ≤ 7
      · rw [processUpcoming_partialBranch today st p hk hA hB.1 hB.2]
        exact partialInv_step_partialBranch st p _ h hB.1 rfl
      · rw [processUpcoming_defer today st p hk hA hB]
        exact partialInv_step_defer st p _ h rfl

theorem processCritical_remaining_mono (today : Int) (st : AllocState) (p : Nat × Obligation)
    (hpos : 0 < p.2.amount) :
    (processCritical today st p).remaining_cash ≤ st.remaining_cash ∧
    (st.remaining_cash = 0 → (processCritical today st p).remaining_cash = 0) := by
  by_cases hA : p.2.amount ≤ st.remaining_cash
  · rw [processCritical_full today st p hA]
    dsimp only
    exact ⟨by linarith, fun h0 => absurd hA (by rw [h0]; intro hc; linarith)⟩
  · by_cases hB : 0 < st.remaining_cash
    · rw [processCritical_partialBranch today st p hA hB]
      exact ⟨le_of_lt hB, fun _ => rfl⟩
    · rw [processCritical_defer today st p hA hB]
      exact ⟨le_refl _, fun h0 => h0⟩

theorem processPastDue_remaining_mono (today : Int) (st : AllocState) (p : Nat × Obligation)
    (hpos : 0 < p.2.amount) :
    (processPastDue today st p).remaining_cash ≤ st.remaining_cash ∧
    (st.remaining_cash = 0 → (processPastDue today st p).remaining_cash = 0) := by
  by_cases hA : p.2.amount ≤ st.remaining_cash
  · rw [processPastDue_full today st p hA]
    dsimp only
    exact ⟨by linarith, fun h0 => absurd hA (by rw [h0]; intro hc; linarith)⟩
  · by_cases hB : 0 < st.remaining_cash
    · rw [processPastDue_partialBranch today st p hA hB]
      exact ⟨le_of_lt hB, fun _ => rfl⟩
    · rw [processPastDue_defer today st p hA hB]
      exact ⟨le_refl _, fun h0 => h0⟩

theorem processUpcoming_remaining_mono (today : Int) (st : AllocState) (p : Nat × Obligation)
    (hpos : 0 < p.2.amount) :
    (processUpcoming today st p).remaining_cash ≤ st.remaining_cash ∧
    (st.remaining_cash = 0 → (processUpcoming today st p).remaining_cash = 0) := by
  by_cases hk : p ∈ keysOf st.recommendations
  · rw [processUpcoming_skip today st p hk]
    exact ⟨le_refl _, fun h0 => h0⟩
  · by_cases hA : p.2.amount ≤ st.remaining_cash
    · rw [processUpcoming_full today st p hk hA]
      dsimp only
      exact ⟨by linarith, fun h0 => absurd hA (by rw [h0]; intro hc; linarith)⟩
    · by_cases hB : 0 < st.remaining_cash ∧ daysToDue today p.2 ≤ 7
      · rw [processUpcoming_partialBranch today st p hk hA hB.1 hB.2]
        exact ⟨le_of_lt hB.1, fun _ => rfl⟩
      · rw [processUpcoming_defer today st p hk hA hB]
        exact ⟨le_refl _, fun h0 => h0⟩

/-- The at-most-one-Partial invariant holds at the end of the whole pass. -/
theorem finalState_partialInv (today : Int) (unpaid_expenses : List Obligation)
    (available_cash : ℚ) (hpos : ∀ e ∈ unpaid_expenses, 0 < e.amount) :
    PartialInv (finalState today unpaid_expenses available_cash) := by
  have hposC := sort_amount_pos today hpos (criticalGroup unpaid_expenses)
    (fun p hp => (mem_criticalGroup hp).1)
  have hposP := sort_amount_pos today hpos (pastDueGroup today unpaid_expenses)
    (fun p hp => (mem_pastDueGroup hp).1)
  have hposU := sort_amount_pos today hpos (upcomingGroup today unpaid_expenses)
    (fun p hp => (mem_upcomingGroup hp).1)
  apply foldl_preserves _ _ _
    (fun st' p hp h => processUpcoming_partialInv today st' p (hposU p hp) h)
  apply foldl_preserves _ _ _
    (fun st' p hp h => processPastDue_partialInv today st' p (hposP p hp) h)
  apply foldl_preserves _ _ _
    (fun st' p hp h => processCritical_partialInv today st' p (hposC p hp) h)
  refine ⟨?_, ?_, List.Pairwise.nil⟩
  · intro q hq
    exact absurd hq (List.not_mem_nil q)
  · simp

/-- C10: with all amounts positive, each processing step never increases
`remaining_cash` and keeps it at 0 once it reaches 0; consequently the
whole output contains at most one Partial decision, and every decision
after a Partial one (in allocation order) is a Defer. -/
theorem C10_partial_uniqueness :
    (∀ (today : Int) (st : AllocState) (p : Nat × Obligation), 0 < p.2.amount →
      ((processCritical today st p).remaining_cash ≤ st.remaining_cash ∧
        (st.remaining_cash = 0 → (processCritical today st p).remaining_cash = 0)) ∧
      ((processPastDue today st p).remaining_cash ≤ st.remaining_cash ∧
        (st.remaining_cash = 0 → (processPastDue today st p).remaining_cash = 0)) ∧
      ((processUpcoming today st p).remaining_cash ≤ st.remaining_cash ∧
        (st.remaining_cash = 0 → (processUpcoming today st p).remaining_cash = 0))) ∧
    (∀ (today : Int) (unpaid_expenses : List Obligation) (available_cash : ℚ),
      (∀ e ∈ unpaid_expenses, 0 < e.amount) →
      (run_timeline_cash_flow_analysis today unpaid_expenses
          available_cash).recommendations.countP isPartialEntry ≤ 1 ∧
      (run_timeline_cash_flow_analysis today unpaid_expenses
          available_cash).recommendations.Pairwise
        (fun a b => a.2.payment_status = PayStatus.Partial →
          b.2.payment_status = PayStatus.Defer)) := by
  constructor
  · intro today st p hpos
    exact ⟨processCritical_remaining_mono today st p hpos,
      processPastDue_remaining_mono today st p hpos,
      processUpcoming_remaining_mono today st p hpos⟩
  · intro today unpaid_expenses available_cash hpos
    have h := finalState_partialInv today unpaid_expenses available_cash hpos
    rw [run_eq]
    exact ⟨h.2.1, h.2.2⟩

/-- Witness instantiating `C10_partial_uniqueness` at a concrete step state
and a concrete run. -/
theorem C10_partial_uniqueness_witness :
    (((processCritical 0 ⟨3, 0, []⟩
        (0, { id := 1, amount := 1, due_date := some 0, urgency := Urgency.Medium,
              is_critical_vendor := false })).remaining_cash ≤
        (⟨3, 0, []⟩ : AllocState).remaining_cash ∧
      ((⟨3, 0, []⟩ : AllocState).remaining_cash = 0 →
        (processCritical 0 ⟨3, 0, []⟩
          (0, { id := 1, amount := 1, due_date := some 0, urgency := Urgency.Medium,
                is_critical_vendor := false })).remaining_cash = 0)) ∧
      ((processPastDue 0 ⟨3, 0, []⟩
          (0, { id := 1, amount := 1, due_date := some 0, urgency := Urgency.Medium,
                is_critical_vendor := false })).remaining_cash ≤
        (⟨3, 0, []⟩ : AllocState).remaining_cash ∧
      ((⟨3, 0, []⟩ : AllocState).remaining_cash = 0 →
        (processPastDue 0 ⟨3, 0, []⟩
          (0, { id := 1, amount := 1, due_date := some 0, urgency := Urgency.Medium,
                is_critical_vendor := false })).remaining_cash = 0)) ∧
      ((processUpcoming 0 ⟨3, 0, []⟩
          (0, { id := 1, amount := 1, due_date := some 0, urgency := Urgency.Medium,
                is_critical_vendor := false })).remaining_cash ≤
        (⟨3, 0, []⟩ : AllocState).remaining_cash ∧
      ((⟨3, 0, []⟩ : AllocState).remaining_cash = 0 →
        (processUpcoming 0 ⟨3, 0, []⟩
          (0, { id := 1, amount := 1, due_date := some 0, urgency := Urgency.Medium,
                is_critical_vendor := false })).remaining_cash = 0))) ∧
    ((run_timeline_cash_flow_analysis 0
        [{ id := 1, amount := 1, due_date := some 0, urgency := Urgency.Medium,
           is_critical_vendor := false }] 5).recommendations.countP isPartialEntry ≤ 1 ∧
      (run_timeline_cash_flow_analysis 0
          [{ id := 1, amount := 1, due_date := some 0, urgency := Urgency.Medium,
             is_critical_vendor := false }] 5).recommendations.Pairwise
        (fun a b => a.2.payment_status = PayStatus.Partial →
          b.2.payment_status = PayStatus.Defer)) :=
  ⟨C10_partial_uniqueness.1 0 ⟨3, 0, []⟩
      (0, { id := 1, amount := 1, due_date := some 0, urgency := Urgency.Medium,
            is_critical_vendor := false }) (by norm_num),
    C10_partial_uniqueness.2 0
      [{ id := 1, amount := 1, due_date := some 0, urgency := Urgency.Medium,
         is_critical_vendor := false }] 5
      (by intro e he
          simp only [List.mem_cons, List.not_mem_nil, or_false] at he
          rw [he]
          norm_num)⟩

/-- Days overdue as worded by the spec: `today - due_date` if the due date
is in the past, else 0. -/
def specDaysOverdue (today d : Int) : Int :=
  if d < today then today - d else 0

/-- Priority-score formula exactly as worded by the spec (Step 2), written
independently of the code's score functions so the two can be compared:
Critical scores `90 + min(10, max(0, days_overdue))`; PastDue scores
`70 + min(20, days_overdue // 5)`; Upcoming scores a days-to-due bucket base
(`≤7 → 60`, `≤14 → 50`, `≤30 → 40`, else 30) adjusted by urgency
(High +10, Medium +0, Low −10). -/
def specPriorityScore (today : Int) (e : Obligation) : Int :=
  if isCriticalExpense e then
    90 + min 10 (max 0 (specDaysOverdue today (dueKey e)))
  else if dueKey e < today then
    70 + min 20 (Int.fdiv (today - dueKey e) 5)
  else
    (if dueKey e - today ≤ 7 then 60
     else if dueKey e - today ≤ 14 then 50
     else if dueKey e - today ≤ 30 then 40
     else 30) +
    (match e.urgency with
     | Urgency.High => 10
     | Urgency.Medium => 0
     | Urgency.Low => -10
     | Urgency.Critical => 0)

theorem criticalScore_eq_spec (today : Int) (e : Obligation)
    (hc : isCriticalExpense e = true) (hs : e.due_date.isSome = true) :
    criticalScore today e = specPriorityScore today e := by
  rcases Option.isSome_iff_exists.1 hs with ⟨d, hd⟩
  unfold criticalScore specPriorityScore specDaysOverdue dueKey
  rw [hd, hc]
  simp only [Option.getD_some, if_true]
  by_cases hlt : d < today
  · simp only [if_pos hlt]
    omega
  · simp only [if_neg hlt]
    omega

theorem pastDueScore_eq_spec (today : Int) (e : Obligation)
    (hc : isCriticalExpense e = false) (hs : e.due_date.isSome = true)
    (hlt : dueKey e < today) :
    pastDueScore today e = specPriorityScore today e := by
  rcases Option.isSome_iff_exists.1 hs with ⟨d, hd⟩
  unfold pastDueScore specPriorityScore daysOverdue dueKey
  rw [hd, hc]
  unfold dueKey at hlt
  rw [hd] at hlt
  simp only [Option.getD_some] at hlt
  simp only [Option.getD_some, Bool.false_eq_true, if_false, if_pos hlt]

theorem upcomingScore_eq_spec (today : Int) (e : Obligation)
    (hc : isCriticalExpense e = false) (hs : e.due_date.isSome = true)
    (hge : ¬ dueKey e < today) :
    upcomingScore today e = specPriorityScore today e := by
  rcases Option.isSome_iff_exists.1 hs with ⟨d, hd⟩
  unfold upcomingScore specPriorityScore upcomingBaseScore daysToDue urgencyFactor dueKey
  rw [hd, hc]
  unfold dueKey at hge
  rw [hd] at hge
  simp only [Option.getD_some] at hge
  simp only [Option.getD_some, Bool.false_eq_true, if_false, if_neg hge]

/-- C8: every decision the allocator emits carries a `priority_score` equal
to the spec's per-class formula for its obligation. -/
theorem C8_priority_score_matches_spec (today : Int) (unpaid_expenses : List Obligation)
    (available_cash : ℚ) :
    ∀ q ∈ (run_timeline_cash_flow_analysis today unpaid_expenses
        available_cash).recommendations,
      q.2.priority_score = specPriorityScore today q.1.2 := by
  intro q hq
  rw [run_eq] at hq
  dsimp only at hq
  unfold finalState at hq
  rcases foldl_upcoming_rec_mem _ _ _ q hq with h | h
  · rcases foldl_pastDue_rec_mem _ _ _ q h with h' | h'
    · rcases foldl_critical_rec_mem _ _ _ q h' with h'' | h''
      · simp at h''
      · have hg := mem_criticalGroup ((List.mem_insertionSort dueLE).1 h''.1)
        rw [h''.2]
        exact criticalScore_eq_spec today q.1.2 hg.2.2 hg.2.1
    · have hg := mem_pastDueGroup ((List.mem_insertionSort dueLE).1 h'.1)
      rw [h'.2]
      exact pastDueScore_eq_spec today q.1.2 hg.2.2.1 hg.2.1 hg.2.2.2
  · have hg := mem_upcomingGroup ((List.mem_insertionSort dueLE).1 h.1)
    rw [h.2]
    exact upcomingScore_eq_spec today q.1.2 hg.2.2.1 hg.2.1 hg.2.2.2

/-- Witness instantiating `C8_priority_score_matches_spec` at the deferred
decision of a one-obligation run with zero cash. -/
theorem C8_priority_score_matches_spec_witness :
    (((0, ({ id := 1, amount := 1, due_date := some 1, urgency := Urgency.High,
             is_critical_vendor := false } : Obligation)),
      (⟨PayStatus.Defer, 0,
        upcomingScore 0 { id := 1, amount := 1, due_date := some 1, urgency := Urgency.High,
                          is_critical_vendor := false },
        "Due in " ++
          toString (daysToDue 0 { id := 1, amount := 1, due_date := some 1,
                                  urgency := Urgency.High, is_critical_vendor := false }) ++
            " days, deferred based on timeline analysis"⟩ : Decision)) : Entry).2.priority_score =
      specPriorityScore 0
        (((0, ({ id := 1, amount := 1, due_date := some 1, urgency := Urgency.High,
                 is_critical_vendor := false } : Obligation)),
          (⟨PayStatus.Defer, 0,
            upcomingScore 0 { id := 1, amount := 1, due_date := some 1,
                              urgency := Urgency.High, is_critical_vendor := false },
            "Due in " ++
              toString (daysToDue 0 { id := 1, amount := 1, due_date := some 1,
                                      urgency := Urgency.High,
                                      is_critical_vendor := false }) ++
                " days, deferred based on timeline analysis"⟩ : Decision)) : Entry).1.2 :=
  C8_priority_score_matches_spec 0
    [{ id := 1, amount := 1, due_date := some 1, urgency := Urgency.High,
       is_critical_vendor := false }] 0
    ((0, { id := 1, amount := 1, due_date := some 1, urgency := Urgency.High,
           is_critical_vendor := false }),
      ⟨PayStatus.Defer, 0,
        upcomingScore 0 { id := 1, amount := 1, due_date := some 1, urgency := Urgency.High,
                          is_critical_vendor := false },
        "Due in " ++
          toString (daysToDue 0 { id := 1, amount := 1, due_date := some 1,
                                  urgency := Urgency.High, is_critical_vendor := false }) ++
            " days, deferred based on timeline analysis"⟩)
    (by decide)
